import Mathlib

/-!
Shallow embedding of the normalization/aggregation core of a hospital-billing
dashboard (src/utils.ts and the chart rollup in src/App.tsx), together with
proofs settling the specification claims.

Modelling conventions:
 * JS numbers are modelled as `ℚ` (exact rational arithmetic); JS `NaN` is
   modelled as `none` in `Option ℚ` at the normalizer level, where it can
   arise from `parseFloat`.  Aggregation-level records carry `ℚ` fields, in
   line with the data-model invariant (non-NaN numeric fields).
 * JS strings are Lean `String`s.  `String.prototype.normalize("NFC")` is
   modelled as the identity (inputs are assumed NFC-composed, which holds for
   all the string literals of the source).  `toLowerCase` is modelled by
   mapping `Char.toLower` (identical to JS on ASCII; the Vietnamese keyword
   literals of the source are already lower case).
 * JS `Date` is modelled by a civil triple (year, 1-based month, day) plus a
   seconds-within-day component; epoch day numbers are computed with the
   standard civil-from-days / days-from-civil algorithms.  All divisions use
   `Int.ediv`/`Int.emod` (the `/` and `%` of `Int`), which agree with JS
   floor-division and non-negative remainder for the positive divisors used.
 * JS `Map` (insertion ordered) is modelled as an association list where
   `alSet` updates in place and appends new keys at the end.
-/

namespace Dashboard

/-! ### Character and string helpers -/

/-- JS whitespace characters relevant to `trim` / numeric parsing. -/
def isJsSpace (c : Char) : Bool :=
  c = ' ' ∨ c = '\t' ∨ c = '\n' ∨ c = '\r' ∨ c = '\x0b' ∨ c = '\x0c'

/-- `String.prototype.trim`. -/
def jsTrim (s : String) : String :=
  ⟨((s.data.dropWhile isJsSpace).reverse.dropWhile isJsSpace).reverse⟩

/-- `String.prototype.toLowerCase` (see the modelling note above). -/
def lowerStr (s : String) : String :=
  ⟨s.data.map Char.toLower⟩

/-- `pat` is a contiguous run inside `s` (char-list form of `includes`). -/
def hasSub : List Char → List Char → Bool
  | s, pat =>
    if pat.isPrefixOf s then true
    else
      match s with
      | [] => false
      | _ :: t => hasSub t pat

/-- `String.prototype.includes`. -/
def strIncludes (s pat : String) : Bool :=
  hasSub s.data pat.data

/-- Numeric value of a list of decimal digit characters (most significant first). -/
def digitsVal (cs : List Char) : Nat :=
  cs.foldl (fun a c => 10 * a + (c.toNat - 48)) 0

/-- Render `n` as exactly `k` decimal digits (leading zeros as needed). -/
def padNum : Nat → Nat → List Char
  | 0, _ => []
  | k + 1, n => padNum k (n / 10) ++ [Char.ofNat (n % 10 + 48)]

/-! ### Civil calendar arithmetic (positive divisors only) -/

/-- Gregorian leap-year test, as JS `Date` implements it. -/
def isLeapYear (y : Int) : Bool :=
  (y % 4 == 0 && y % 100 != 0) || y % 400 == 0

/-- Number of days in month `m` (1-based) of year `y`. -/
def daysInMonth (y m : Int) : Int :=
  if m = 2 then (if isLeapYear y then 29 else 28)
  else if m = 4 ∨ m = 6 ∨ m = 9 ∨ m = 11 then 30
  else 31

/-- Days since 1970-01-01 of the civil date `(y, m, d)`; linear in `d`, so it
agrees with the ECMAScript `MakeDay(y, m-1, d)` for out-of-range `d` too. -/
def daysFromCivil (y m d : Int) : Int :=
  let yy := y - (if m ≤ 2 then 1 else 0)
  let era := yy / 400
  let yoe := yy - era * 400
  let doy := (153 * (if 2 < m then m - 3 else m + 9) + 2) / 5 + d - 1
  let doe := yoe * 365 + yoe / 4 - yoe / 100 + doy
  era * 146097 + doe - 719468

/-- Civil date `(y, m, d)` of the day `z` days after 1970-01-01. -/
def civilFromDays (z0 : Int) : Int × Int × Int :=
  let z := z0 + 719468
  let era := z / 146097
  let doe := z - era * 146097
  let yoe :=
    (doe - doe / 1460 + doe / 36524 - doe / 146096) / 365
  let yy := yoe + era * 400
  let doy := doe - (365 * yoe + yoe / 4 - yoe / 100)
  let mp := (5 * doy + 2) / 153
  let d := doy - (153 * mp + 2) / 5 + 1
  let m := if mp < 10 then mp + 3 else mp - 9
  (yy + (if m ≤ 2 then 1 else 0), m, d)

/-- Model of a JS `Date`: civil components plus seconds within the day
(millisecond resolution is irrelevant to the verified code, which never
constructs sub-second components). -/
structure JSDate where
  y : Int
  m : Int
  d : Int
  sec : Int
deriving DecidableEq, Repr

/-- `new Date(y, mIdx, d, h, min, s)` (with `secs = h*3600+min*60+s`):
the ECMAScript two-digit-year rule, month normalization, then day/time
overflow normalization.  When the components are already in range this is the
identity on them, which is exactly what ECMAScript `MakeDay`/`MakeDate`
produce there; otherwise the day number is computed and converted back. -/
def jsMakeDate (y mIdx d secs : Int) : JSDate :=
  let ya := if 0 ≤ y ∧ y ≤ 99 then y + 1900 else y
  let yAdj := ya + mIdx / 12
  let mAdj := mIdx % 12 + 1
  if 1 ≤ d ∧ d ≤ daysInMonth yAdj mAdj ∧ 0 ≤ secs ∧ secs < 86400 then
    ⟨yAdj, mAdj, d, secs⟩
  else
    let dn := daysFromCivil yAdj mAdj d + secs / 86400
    let c := civilFromDays dn
    ⟨c.1, c.2.1, c.2.2, secs % 86400⟩

/-- `Date.prototype.getTime`, in seconds (a fixed rescaling of JS ms). -/
def timeVal (dt : JSDate) : Int :=
  daysFromCivil dt.y dt.m dt.d * 86400 + dt.sec

/-- `new Date(t)` for a time value `t` in seconds. -/
def dateFromTime (t : Int) : JSDate :=
  let c := civilFromDays (t / 86400)
  ⟨c.1, c.2.1, c.2.2, t % 86400⟩

/-- date-fns `isSameMonth`. -/
def isSameMonth (a b : JSDate) : Bool :=
  a.y == b.y && a.m == b.m

/-- `subMonths(date, amount)` from src/utils.ts: `setMonth(getMonth()-amount)`
followed by `setDate(0)` when the day-of-month changed.  For `d ≤ 31` the
overflow lands in the month right after the target, so `setDate(0)` clamps to
the target month's last day: equivalently the day is `min d (daysInMonth)`. -/
def jsSubMonths (dt : JSDate) (amount : Int) : JSDate :=
  let mIdx := dt.m - 1 - amount
  let ty := dt.y + mIdx / 12
  let tm := mIdx % 12 + 1
  ⟨ty, tm, min dt.d (daysInMonth ty tm), dt.sec⟩

/-- date-fns `compareLocalAsc`: lexicographic comparison of local components,
which coincides with comparing time values. -/
def cmpLocalAsc (a b : JSDate) : Int :=
  if timeVal a < timeVal b then -1
  else if timeVal b < timeVal a then 1
  else 0

/-- date-fns v2 `differenceInDays`: the calendar-day difference, minus one
when the trailing partial day is not full, with the sign of the comparison. -/
def differenceInDays (a b : JSDate) : Int :=
  let sign := cmpLocalAsc a b
  let dayA := daysFromCivil a.y a.m a.d
  let dayB := daysFromCivil b.y b.m b.d
  let diff : Int := (dayA - dayB).natAbs
  let movedTime := (dayA - sign * diff) * 86400 + a.sec
  let cmpMoved : Int :=
    if movedTime < timeVal b then -1 else if timeVal b < movedTime then 1 else 0
  let lastNotFull : Int := if cmpMoved = -sign then 1 else 0
  sign * (diff - lastNotFull)

/-! ### The Date Resolver (`parseDateString` in src/utils.ts) -/

/-- Construct `new Date(y, m-1, d, …)` and apply the round-trip guard
`getFullYear() === y && getMonth() === m-1 && getDate() === d`. -/
def mkChecked (y m d secs : Int) : Option JSDate :=
  let dt := jsMakeDate y (m - 1) d secs
  if dt.y = y ∧ dt.m = m ∧ dt.d = d then some dt else none

/-- Model of the anchored regex `^(\d+)sep(\d+)sep(\d+)$` split into the three
maximal digit runs (the per-format length constraints are checked by the
callers, mirroring `\d{1,2}` / `\d{4}`). -/
def splitSep3 (sep : Char) (cs : List Char) : Option (List Char × List Char × List Char) :=
  let a := cs.takeWhile Char.isDigit
  match cs.dropWhile Char.isDigit with
  | c1 :: rest1 =>
    if c1 = sep then
      let b := rest1.takeWhile Char.isDigit
      match rest1.dropWhile Char.isDigit with
      | c2 :: rest2 =>
        if c2 = sep then
          let c := rest2.takeWhile Char.isDigit
          match rest2.dropWhile Char.isDigit with
          | [] => some (a, b, c)
          | _ :: _ => none
        else none
      | [] => none
    else none
  | [] => none

/-- Branch 0: 14-digit compact timestamp `YYYYMMDDhhmmss`. -/
def try14 (cs : List Char) : Option JSDate :=
  if cs.length = 14 ∧ cs.all Char.isDigit then
    mkChecked (digitsVal (cs.take 4)) (digitsVal ((cs.drop 4).take 2))
      (digitsVal ((cs.drop 6).take 2))
      ((digitsVal ((cs.drop 8).take 2) : Int) * 3600 +
        (digitsVal ((cs.drop 10).take 2) : Int) * 60 +
        (digitsVal ((cs.drop 12).take 2) : Int))
  else none

/-- Branch 0b: 8-digit compact date `YYYYMMDD`. -/
def try8 (cs : List Char) : Option JSDate :=
  if cs.length = 8 ∧ cs.all Char.isDigit then
    mkChecked (digitsVal (cs.take 4)) (digitsVal ((cs.drop 4).take 2))
      (digitsVal ((cs.drop 6).take 2)) 0
  else none

/-- Branch 1: `dd/MM/yyyy`. -/
def trySlashDMY (cs : List Char) : Option JSDate :=
  match splitSep3 '/' cs with
  | some (a, b, c) =>
    if 1 ≤ a.length ∧ a.length ≤ 2 ∧ 1 ≤ b.length ∧ b.length ≤ 2 ∧ c.length = 4 then
      mkChecked (digitsVal c) (digitsVal b) (digitsVal a) 0
    else none
  | none => none

/-- Branch 2: `yyyy-MM-dd`. -/
def tryDashYMD (cs : List Char) : Option JSDate :=
  match splitSep3 '-' cs with
  | some (a, b, c) =>
    if a.length = 4 ∧ 1 ≤ b.length ∧ b.length ≤ 2 ∧ 1 ≤ c.length ∧ c.length ≤ 2 then
      mkChecked (digitsVal a) (digitsVal b) (digitsVal c) 0
    else none
  | none => none

/-- Branch 3: `MM/dd/yyyy`. -/
def trySlashMDY (cs : List Char) : Option JSDate :=
  match splitSep3 '/' cs with
  | some (a, b, c) =>
    if 1 ≤ a.length ∧ a.length ≤ 2 ∧ 1 ≤ b.length ∧ b.length ≤ 2 ∧ c.length = 4 then
      mkChecked (digitsVal c) (digitsVal a) (digitsVal b) 0
    else none
  | none => none

/-- Branch 4: `dd-MM-yyyy`. -/
def tryDashDMY (cs : List Char) : Option JSDate :=
  match splitSep3 '-' cs with
  | some (a, b, c) =>
    if 1 ≤ a.length ∧ a.length ≤ 2 ∧ 1 ≤ b.length ∧ b.length ≤ 2 ∧ c.length = 4 then
      mkChecked (digitsVal c) (digitsVal b) (digitsVal a) 0
    else none
  | none => none

/-- `parseDateString` (src/utils.ts lines 106-174): branches are attempted in
source order; each branch that matches syntactically but fails the round-trip
guard falls through to the next branch, which `Option.orElse` captures. -/
def parseDateString (dateStr : String) : Option JSDate :=
  if dateStr = "" then none
  else
    let cs := (jsTrim dateStr).data
    (try14 cs).orElse fun _ =>
    (try8 cs).orElse fun _ =>
    let dp := cs.takeWhile (· ≠ ' ')
    (trySlashDMY dp).orElse fun _ =>
    (tryDashYMD dp).orElse fun _ =>
    (trySlashMDY dp).orElse fun _ =>
    tryDashDMY dp

/-! ### JS numeric parsing -/

/-- `parseFloat`, returning `none` for `NaN` (the `Infinity` literal, which no
claim exercises, is likewise unrepresentable in `ℚ` and modelled as `none`).
Leading whitespace is skipped, then the longest valid decimal-literal run
(optional sign, digits, optional fraction, optional exponent) is converted. -/
def expDigitsVal (r : List Char) : Int :=
  let es : Int := if r.head? = some '-' then -1 else 1
  let r1 := if r.head? = some '-' ∨ r.head? = some '+' then r.tail else r
  let ds := r1.takeWhile Char.isDigit
  if ds.isEmpty then 0 else es * (digitsVal ds : Int)

/-- `parseFloat`, returning `none` for `NaN` (the `Infinity` literal, which no
claim exercises, is likewise unrepresentable in `ℚ` and modelled as `none`).
Leading whitespace is skipped, then the longest valid decimal-literal run
(optional sign, digits, optional fraction, optional exponent via
`expDigitsVal`) is converted. -/
def jsParseFloat (s : String) : Option ℚ :=
  let cs := s.data.dropWhile isJsSpace
  let sign : ℚ := if cs.head? = some '-' then -1 else 1
  let cs1 := if cs.head? = some '-' ∨ cs.head? = some '+' then cs.tail else cs
  let intPart := cs1.takeWhile Char.isDigit
  let rest1 := cs1.dropWhile Char.isDigit
  let fracPart := if rest1.head? = some '.' then rest1.tail.takeWhile Char.isDigit else []
  let rest2 := if rest1.head? = some '.' then rest1.tail.dropWhile Char.isDigit else rest1
  if intPart.isEmpty ∧ fracPart.isEmpty then none
  else
    let mant : ℚ := (digitsVal intPart : ℚ) + (digitsVal fracPart : ℚ) / 10 ^ fracPart.length
    let expVal : Int :=
      if rest2.head? = some 'e' ∨ rest2.head? = some 'E' then expDigitsVal rest2.tail else 0
    some (sign * mant * 10 ^ expVal)

/-- `parseInt(s, 10)`, returning `none` for `NaN`: leading whitespace, an
optional sign, then the longest run of decimal digits. -/
def jsParseInt (s : String) : Option Int :=
  let cs := s.data.dropWhile isJsSpace
  let sign : Int := if cs.head? = some '-' then -1 else 1
  let cs1 := if cs.head? = some '-' ∨ cs.head? = some '+' then cs.tail else cs
  let ds := cs1.takeWhile Char.isDigit
  if ds.isEmpty then none else some (sign * (digitsVal ds : Int))

/-! ### Raw rows and the Record Normalizer (`processRawData`, src/utils.ts) -/

/-- One raw spreadsheet row.  `MA_LK`/`MA_BN` are among the schema-validated
required columns and modelled as present; every other field may be absent
(`none` models JS `undefined`), which is what the normalizer defends against.
Raw fields not read by the normalizer are omitted. -/
structure RawMedicalRecord where
  TEN_DOI_TUONG : Option String := none
  MA_LK : String := ""
  MA_BN : String := ""
  NGAY_VAO_VIEN : Option String := none
  NGAY_VAO_KHOA : Option String := none
  NGAY_RA_VIEN : Option String := none
  NGAY_THANH_TOAN : Option String := none
  SO_NGAY_DTRI : Option String := none
  KET_QUA_DTRI : Option String := none
  MA_BENH : Option String := none
  CHAN_DOAN : Option String := none
  BAC_SY : Option String := none
  KHOA : Option String := none
  TEN_NHOM : Option String := none
  DICH_VU : Option String := none
  SO_LUONG : Option String := none
  THANH_TIEN : Option String := none
  MA_LOAI_KCB : Option String := none
  TINH_TRANG_RV : Option String := none
deriving Repr

/-- The normalizer's faithful per-row output.  `SO_LUONG`/`THANH_TIEN` are
`Option ℚ` because `parseFloat` can produce `NaN` (`none`); `SO_NGAY_DTRI` is
an `Int` (the trailing `isNaN` guard replaces `NaN` by 0). -/
structure NormRecord where
  id : String
  TEN_DOI_TUONG : String
  MA_LK : String
  MA_BN : String
  NGAY_VAO_VIEN : Option JSDate
  NGAY_VAO_KHOA : Option JSDate
  NGAY_RA_VIEN : Option JSDate
  NGAY_THANH_TOAN : Option JSDate
  NGAY_THONG_KE : JSDate
  SO_NGAY_DTRI : Int
  KET_QUA_DTRI : String
  MA_BENH : String
  CHAN_DOAN : String
  BAC_SY : String
  KHOA : String
  TEN_NHOM : String
  DICH_VU : String
  SO_LUONG : Option ℚ
  THANH_TIEN : Option ℚ
  MA_LOAI_KCB : String
  TINH_TRANG_RV : String
  NAM : Int
  THANG : Int
  QUY : Int
deriving Repr

/-- `parseDateString(row.FIELD)` where the field may be `undefined`
(`parseDateString` maps both `undefined` and `''` to `null`). -/
def parseDateField (o : Option String) : Option JSDate :=
  parseDateString (o.getD "")

/-- `row.FIELD?.replace(/,/g, '') || '0'`: strip commas, with `undefined` and
the empty result both replaced by `'0'`. -/
def numSource (o : Option String) : String :=
  match o with
  | none => "0"
  | some s =>
    let s' : String := ⟨s.data.filter (· ≠ ',')⟩
    if s' = "" then "0" else s'

/-- `row.FIELD || 'dflt'` for an optional string field. -/
def strOr (o : Option String) (dflt : String) : String :=
  match o with
  | none => dflt
  | some s => if s = "" then dflt else s

/-- One iteration of `processRawData`'s `map` (src/utils.ts lines 177-225).
`now` stands for `new Date()` at processing time. -/
def processRawRow (now : JSDate) (index : Nat) (row : RawMedicalRecord) : NormRecord :=
  let ngayVaoVien := parseDateField row.NGAY_VAO_VIEN
  let ngayRaVien := parseDateField row.NGAY_RA_VIEN
  let ngayThanhToan := parseDateField row.NGAY_THANH_TOAN
  let ngayThongKe :=
    ((ngayThanhToan.orElse fun _ => ngayRaVien).orElse fun _ => ngayVaoVien).getD now
  let soLuong := jsParseFloat (numSource row.SO_LUONG)
  let thanhTien := jsParseFloat (numSource row.THANH_TIEN)
  let soNgayDtri0 := jsParseInt (strOr row.SO_NGAY_DTRI "0")
  let soNgayDtri1 : Option Int :=
    if (soNgayDtri0 = some 0 ∨ soNgayDtri0 = none) then
      match ngayRaVien, ngayVaoVien with
      | some ra, some vao => some (differenceInDays ra vao + 1)
      | _, _ => soNgayDtri0
    else soNgayDtri0
  let soNgayDtri := soNgayDtri1.getD 0
  let maBenh :=
    let t := jsTrim (strOr row.MA_BENH "")
    if t = "" then "Unknown" else t
  { id := toString index ++ "-" ++ row.MA_LK
    TEN_DOI_TUONG := strOr row.TEN_DOI_TUONG "Unknown"
    MA_LK := row.MA_LK
    MA_BN := row.MA_BN
    NGAY_VAO_VIEN := ngayVaoVien
    NGAY_VAO_KHOA := parseDateField row.NGAY_VAO_KHOA
    NGAY_RA_VIEN := ngayRaVien
    NGAY_THANH_TOAN := ngayThanhToan
    NGAY_THONG_KE := ngayThongKe
    SO_NGAY_DTRI := soNgayDtri
    KET_QUA_DTRI := strOr row.KET_QUA_DTRI "Unknown"
    MA_BENH := maBenh
    CHAN_DOAN := strOr row.CHAN_DOAN ""
    BAC_SY := strOr row.BAC_SY "Unknown"
    KHOA := strOr row.KHOA "Unknown"
    TEN_NHOM := strOr row.TEN_NHOM "Other"
    DICH_VU := strOr row.DICH_VU "Unknown"
    SO_LUONG := soLuong
    THANH_TIEN := thanhTien
    MA_LOAI_KCB := strOr row.MA_LOAI_KCB ""
    TINH_TRANG_RV := strOr row.TINH_TRANG_RV ""
    NAM := ngayThongKe.y
    THANG := ngayThongKe.m
    QUY := (ngayThongKe.m - 1) / 3 + 1 }

/-- `processRawData`: order-preserving map with the row index. -/
def processRawData (now : JSDate) (data : List RawMedicalRecord) : List NormRecord :=
  data.enum.map fun p => processRawRow now p.1 p.2

/-! ### The aggregation-layer record and insertion-ordered maps -/

/-- A canonical record as consumed by the aggregators.  Numeric fields are
rational, per the data-model invariant (non-NaN numeric fields); fields the
verified aggregations never read are omitted. -/
structure MedicalRecord where
  MA_LK : String
  MA_BN : String := ""
  KHOA : String := ""
  MA_BENH : String := ""
  DICH_VU : String := ""
  TEN_NHOM : String := ""
  MA_LOAI_KCB : String := ""
  THANH_TIEN : ℚ
  NGAY_THONG_KE : JSDate := ⟨2024, 1, 1, 0⟩
deriving Repr

/-- Insertion-ordered map, the model of a JS `Map`. -/
abbrev AList (α : Type) : Type := List (String × α)

/-- `Map.prototype.get` (`none` models `undefined`). -/
def alGet {α : Type} : AList α → String → Option α
  | [], _ => none
  | (k', v') :: t, k => if k' = k then some v' else alGet t k

/-- `Map.prototype.set`: update in place, or append a new key at the end. -/
def alSet {α : Type} : AList α → String → α → AList α
  | [], k, v => [(k, v)]
  | (k', v') :: t, k, v =>
    if k' = k then (k, v) :: t else (k', v') :: alSet t k v

/-! ### KPI Aggregator (`calculateKPIs`, src/utils.ts lines 228-442) -/

/-- `totalCost = data.reduce((sum, d) => sum + d.THANH_TIEN, 0)`. -/
def totalCost (data : List MedicalRecord) : ℚ :=
  data.foldl (fun sum d => sum + d.THANH_TIEN) 0

/-- `normalize = (str) => str.normalize("NFC").toLowerCase()`; NFC is modelled
as the identity (see the header note). -/
def normalizeStr (s : String) : String :=
  lowerStr s

/-- The medicine predicate of `totalMedicineRevenue`, applied to the trimmed
group label. -/
def isMedicineGroup (groupRaw : String) : Bool :=
  let group := normalizeStr groupRaw
  groupRaw == "4" || groupRaw == "5" || groupRaw == "6" ||
  strIncludes group "thuốc" || strIncludes group "thuoc" ||
  strIncludes group "dược" || strIncludes group "duoc" ||
  strIncludes group "huyết thanh" || strIncludes group "vắc xin"

/-- The diagnostic-imaging predicate of `totalCDHARevenue`. -/
def isCDHAGroup (groupRaw : String) : Bool :=
  let group := normalizeStr groupRaw
  groupRaw == "2" || groupRaw == "3" ||
  strIncludes group "chẩn đoán hình ảnh" || strIncludes group "cđha" ||
  strIncludes group "x-quang" || strIncludes group "xquang" ||
  strIncludes group "siêu âm" || strIncludes group "ct scanner" ||
  strIncludes group "cắt lớp" || strIncludes group "mri" ||
  strIncludes group "cộng hưởng từ"

/-- The laboratory predicate of `totalLabRevenue`. -/
def isLabGroup (groupRaw : String) : Bool :=
  let group := normalizeStr groupRaw
  groupRaw == "1" ||
  strIncludes group "xét nghiệm" || strIncludes group "xn" ||
  strIncludes group "huyết học" || strIncludes group "sinh hóa" ||
  strIncludes group "vi sinh" || strIncludes group "miễn dịch" ||
  strIncludes group "giải phẫu bệnh"

/-- The bed predicate of `totalBedRevenue`. -/
def isBedGroup (groupRaw : String) : Bool :=
  let group := normalizeStr groupRaw
  groupRaw == "14" || groupRaw == "15" ||
  strIncludes group "giường" || strIncludes group "giuong"

/-- `totalMedicineRevenue`: an independent conditional reduce over the rows. -/
def totalMedicineRevenue (data : List MedicalRecord) : ℚ :=
  data.foldl
    (fun sum d => if isMedicineGroup (jsTrim d.TEN_NHOM) then sum + d.THANH_TIEN else sum) 0

/-- `totalCDHARevenue`. -/
def totalCDHARevenue (data : List MedicalRecord) : ℚ :=
  data.foldl
    (fun sum d => if isCDHAGroup (jsTrim d.TEN_NHOM) then sum + d.THANH_TIEN else sum) 0

/-- `totalLabRevenue`. -/
def totalLabRevenue (data : List MedicalRecord) : ℚ :=
  data.foldl
    (fun sum d => if isLabGroup (jsTrim d.TEN_NHOM) then sum + d.THANH_TIEN else sum) 0

/-- `totalBedRevenue`. -/
def totalBedRevenue (data : List MedicalRecord) : ℚ :=
  data.foldl
    (fun sum d => if isBedGroup (jsTrim d.TEN_NHOM) then sum + d.THANH_TIEN else sum) 0

/-- Modelled from the spec: the residual Other category revenue — the KPI
aggregator itself computes no Other bucket, and the spec's partition property
(§8) speaks of the revenue of rows "no match falls to Other" (§4.3), i.e. of
the rows matched by none of the four category predicates. -/
def otherCategoryRevenue (data : List MedicalRecord) : ℚ :=
  data.foldl
    (fun sum d =>
      if ¬ (isMedicineGroup (jsTrim d.TEN_NHOM) ∨ isCDHAGroup (jsTrim d.TEN_NHOM) ∨
          isLabGroup (jsTrim d.TEN_NHOM) ∨ isBedGroup (jsTrim d.TEN_NHOM)) then
        sum + d.THANH_TIEN
      else sum) 0

/-- The shared cost-accumulation step: `map.set(k, (map.get(k) || 0) + THANH_TIEN)`
for `k` the value of a key column (visit id, department or service name). -/
def costStep (key : MedicalRecord → String) (m : AList ℚ) (d : MedicalRecord) : AList ℚ :=
  alSet m (key d) ((alGet m (key d)).getD 0 + d.THANH_TIEN)

/-- `visitCostMap`: per-visit accumulated cost. -/
def visitCostMap (data : List MedicalRecord) : AList ℚ :=
  data.foldl (costStep MedicalRecord.MA_LK) []

/-- The Inpatient flag of the visit-type resolver (applied to the trimmed
raw tag for new rows, and to the stored tag for the current classification). -/
def isNoiTruTag (t : String) : Bool :=
  t == "03" || t == "3" ||
  strIncludes (lowerStr t) "nội" || strIncludes (lowerStr t) "noi"

/-- The Outpatient-Treatment flag of the visit-type resolver. -/
def isDTNgoaiTruTag (t : String) : Bool :=
  t == "02" || t == "2" ||
  strIncludes (lowerStr t) "điều trị ngoại" || strIncludes (lowerStr t) "dt ngoai"

/-- One row of the visit-type resolution loop.  Note `if (!currentType)` is a
JS truthiness test, so a stored empty string is overwritten unconditionally,
exactly like a missing entry. -/
def visitTypeStep (m : AList String) (d : MedicalRecord) : AList String :=
  let newTypeRaw := jsTrim d.MA_LOAI_KCB
  match alGet m d.MA_LK with
  | none => alSet m d.MA_LK newTypeRaw
  | some currentType =>
    if currentType = "" then alSet m d.MA_LK newTypeRaw
    else if isNoiTruTag newTypeRaw ∧ ¬ isNoiTruTag currentType then
      alSet m d.MA_LK newTypeRaw
    else if isDTNgoaiTruTag newTypeRaw ∧ ¬ isNoiTruTag currentType ∧
        ¬ isDTNgoaiTruTag currentType then
      alSet m d.MA_LK newTypeRaw
    else m

/-- `visitTypeMap`: the priority-resolved raw tag per visit. -/
def visitTypeMap (data : List MedicalRecord) : AList String :=
  data.foldl visitTypeStep []

/-- The four visit-type buckets of the counting loop. -/
inductive VisitBucket where
  | noiTru
  | dtNgoaiTru
  | khamBenh
  | khac
deriving DecidableEq, Repr

/-- The `if/else if/else` bucket chain of the counting loop
(`const t = String(type).trim().toLowerCase()`). -/
def bucketOfType (ty : String) : VisitBucket :=
  let t := lowerStr (jsTrim ty)
  if t == "03" || t == "3" || strIncludes t "nội" || strIncludes t "noi" then
    .noiTru
  else if t == "02" || t == "2" || strIncludes t "điều trị ngoại" ||
      strIncludes t "dt ngoai" then
    .dtNgoaiTru
  else if t == "01" || t == "1" ||
      (strIncludes t "khám" && ! strIncludes t "sức khỏe") then
    .khamBenh
  else
    .khac

/-- The four visit-type revenue accumulators of `calculateKPIs`. -/
structure VisitTypeRevenue where
  revenueKhamBenh : ℚ
  revenueDieuTriNgoaiTru : ℚ
  revenueNoiTru : ℚ
  revenueKhac : ℚ
deriving DecidableEq, Repr

/-- One entry of the `visitTypeMap.forEach` revenue loop: the visit's
accumulated cost (`visitCostMap.get(maLk) || 0`) goes to exactly one bucket. -/
def revStep (costs : AList ℚ) (acc : VisitTypeRevenue) (e : String × String) :
    VisitTypeRevenue :=
  let cost := (alGet costs e.1).getD 0
  match bucketOfType e.2 with
  | .noiTru => { acc with revenueNoiTru := acc.revenueNoiTru + cost }
  | .dtNgoaiTru =>
    { acc with revenueDieuTriNgoaiTru := acc.revenueDieuTriNgoaiTru + cost }
  | .khamBenh => { acc with revenueKhamBenh := acc.revenueKhamBenh + cost }
  | .khac => { acc with revenueKhac := acc.revenueKhac + cost }

/-- The `visitTypeMap.forEach` revenue loop of `calculateKPIs`. -/
def revenueByVisitType (data : List MedicalRecord) : VisitTypeRevenue :=
  (visitTypeMap data).foldl (revStep (visitCostMap data)) ⟨0, 0, 0, 0⟩

/-! ### Chart Aggregator revenue-structure rollup (src/App.tsx lines 264-284) -/

/-- `isMedicine` of the chart rollup (no NFC normalization, shorter keyword
list than the KPI predicate). -/
def chartIsMedicine (groupRaw : String) : Bool :=
  let group := lowerStr groupRaw
  groupRaw == "4" || groupRaw == "5" || groupRaw == "6" ||
  strIncludes group "thuốc" || strIncludes group "dược" ||
  strIncludes group "vắc xin"

/-- `isCLS` of the chart rollup (clinical services: lab + imaging + codes 1-3). -/
def chartIsCLS (groupRaw : String) : Bool :=
  let group := lowerStr groupRaw
  groupRaw == "1" || groupRaw == "2" || groupRaw == "3" ||
  strIncludes group "xét nghiệm" || strIncludes group "chẩn đoán" ||
  strIncludes group "siêu âm" || strIncludes group "x-quang" ||
  strIncludes group "pttt"

/-- `isBed` of the chart rollup. -/
def chartIsBed (groupRaw : String) : Bool :=
  let group := lowerStr groupRaw
  groupRaw == "14" || groupRaw == "15" || strIncludes group "giường"

/-- The revenue-structure accumulators (`revMedicine`, `revCLS`, `revBed`,
`revOther`), the values behind the 'Thuốc' / 'Cận Lâm Sàng' / 'Tiền Giường' /
'Khác' pie slices. -/
structure RevenueStructure where
  revMedicine : ℚ
  revCLS : ℚ
  revBed : ℚ
  revOther : ℚ
deriving DecidableEq, Repr

/-- One row of the revenue-structure chain (`if isMedicine … else if isCLS …
else if isBed … else other`). -/
def chartRevStep (acc : RevenueStructure) (d : MedicalRecord) : RevenueStructure :=
  let groupRaw := jsTrim d.TEN_NHOM
  if chartIsMedicine groupRaw then
    { acc with revMedicine := acc.revMedicine + d.THANH_TIEN }
  else if chartIsCLS groupRaw then
    { acc with revCLS := acc.revCLS + d.THANH_TIEN }
  else if chartIsBed groupRaw then
    { acc with revBed := acc.revBed + d.THANH_TIEN }
  else
    { acc with revOther := acc.revOther + d.THANH_TIEN }

/-- The `filteredData.forEach` revenue-structure chain of `chartData`. -/
def revenueStructure (data : List MedicalRecord) : RevenueStructure :=
  data.foldl chartRevStep ⟨0, 0, 0, 0⟩

/-! ### Anomaly Detector (`generateAlerts`, src/utils.ts lines 444-534) -/

/-- An emitted alert (`type` is one of `"danger"`, `"warning"`, `"info"`). -/
structure AlertItem where
  type : String
  message : String
  detail : String
deriving DecidableEq, Repr

/-- `Number.prototype.toFixed(1)` on a rational: sign first, then the integer
`n` closest to `10·|x|` (ties towards the larger `n`), printed with one
decimal. -/
def toFixed1 (x : ℚ) : String :=
  if x < 0 then "-" ++ core (-x) else core x
where
  core (x : ℚ) : String :=
    let n := Rat.floor (x * 10 + 1 / 2)
    toString (n / 10) ++ "." ++ toString (n % 10)

/-- Modelled from the spec: `Intl.NumberFormat('vi-VN', …)` currency
formatting (§6 output boundary).  Locale rendering is opaque to every claim,
so any injective rendering of the rational serves; no theorem inspects it. -/
def formatCurrency (v : ℚ) : String :=
  toString v.num ++ "/" ++ toString v.den

/-- The informational alert pushed when the previous month has no rows. -/
def infoAlert : AlertItem :=
  ⟨"info", "Thiếu dữ liệu kỳ trước",
    "Không thể so sánh tăng trưởng do thiếu dữ liệu tháng trước trong bộ lọc hiện tại."⟩

/-- `getDeptCost` / `getServiceCost`: cost per key. -/
def costByKey (key : MedicalRecord → String) (ds : List MedicalRecord) : AList ℚ :=
  ds.foldl (costStep key) []

/-- `getICDVisits`: distinct visit ids per diagnosis code (a JS `Set` is an
insertion-ordered list without duplicates). -/
def icdVisitsOf (ds : List MedicalRecord) : AList (List String) :=
  ds.foldl
    (fun m d =>
      let s := (alGet m d.MA_BENH).getD []
      alSet m d.MA_BENH (if s.contains d.MA_LK then s else s ++ [d.MA_LK])) []

/-- The department alert for key `dept` at growth `g`. -/
def mkDeptAlert (dept : String) (g : ℚ) : AlertItem :=
  ⟨"danger", "Khoa " ++ dept ++ " tăng chi phí cao",
    "Tăng " ++ toFixed1 (g * 100) ++ "% so với tháng trước."⟩

/-- The diagnosis alert for key `icd` at growth `g` with current count `c`. -/
def mkIcdAlert (icd : String) (g : ℚ) (c : Nat) : AlertItem :=
  ⟨"warning", "Bệnh " ++ icd ++ " tăng số lượt",
    "Tăng " ++ toFixed1 (g * 100) ++ "% (" ++ toString c ++
      " lượt) so với tháng trước."⟩

/-- The service alert for key `svc` at growth `g` and cost delta `delta`. -/
def mkSvcAlert (svc : String) (g : ℚ) (delta : ℚ) : AlertItem :=
  ⟨"danger", "Dịch vụ tăng chi phí bất thường: " ++ svc,
    "Tăng " ++ toFixed1 (g * 100) ++ "% (" ++ formatCurrency delta ++
      ") so với tháng trước."⟩

/-- The `curDeptCost.forEach` push loop: `if (prev && prev > 0)` then the
strict 30% growth test. -/
def deptAlertsOf (cur prev : AList ℚ) : List AlertItem :=
  cur.filterMap fun e =>
    match alGet prev e.1 with
    | some p =>
      if p ≠ 0 ∧ 0 < p ∧ 3 / 10 < (e.2 - p) / p then
        some (mkDeptAlert e.1 ((e.2 - p) / p))
      else none
    | none => none

/-- The `curICD.forEach` push loop: `if (prevCount && prevCount > 10)`. -/
def icdAlertsOf (cur prev : AList (List String)) : List AlertItem :=
  cur.filterMap fun e =>
    let count : Nat := e.2.length
    match alGet prev e.1 with
    | some s =>
      let prevCount := s.length
      if prevCount ≠ 0 ∧ 10 < prevCount ∧
          3 / 10 < ((count : ℚ) - (prevCount : ℚ)) / (prevCount : ℚ) then
        some (mkIcdAlert e.1 (((count : ℚ) - (prevCount : ℚ)) / (prevCount : ℚ)) count)
      else none
    | none => none

/-- The `curSvcCost.forEach` push loop: `if (prev && prev > 1000000)`. -/
def svcAlertsOf (cur prev : AList ℚ) : List AlertItem :=
  cur.filterMap fun e =>
    match alGet prev e.1 with
    | some p =>
      if p ≠ 0 ∧ 1000000 < p ∧ 3 / 10 < (e.2 - p) / p then
        some (mkSvcAlert e.1 ((e.2 - p) / p) (e.2 - p))
      else none
    | none => none

/-- `new Date(Math.max(...currentData.map(d => d.NGAY_THONG_KE.getTime())))`,
defined on non-empty data (the caller guards the empty case). -/
def maxStatTime : List MedicalRecord → Int
  | [] => 0
  | h :: t => t.foldl (fun acc d => max acc (timeVal d.NGAY_THONG_KE)) (timeVal h.NGAY_THONG_KE)

/-- The rows of the latest calendar month of `data`. -/
def currentMonthOf (data : List MedicalRecord) : List MedicalRecord :=
  data.filter fun d => isSameMonth d.NGAY_THONG_KE (dateFromTime (maxStatTime data))

/-- The rows of the month preceding the latest calendar month of `data`. -/
def prevMonthOf (data : List MedicalRecord) : List MedicalRecord :=
  data.filter fun d =>
    isSameMonth d.NGAY_THONG_KE (jsSubMonths (dateFromTime (maxStatTime data)) 1)

/-- `generateAlerts` (src/utils.ts lines 444-534). -/
def generateAlerts (currentData : List MedicalRecord) : List AlertItem :=
  match currentData with
  | [] => []
  | _ :: _ =>
    let currentMonthData := currentMonthOf currentData
    let prevMonthData := prevMonthOf currentData
    if prevMonthData.length = 0 then [infoAlert]
    else
      deptAlertsOf (costByKey MedicalRecord.KHOA currentMonthData)
          (costByKey MedicalRecord.KHOA prevMonthData) ++
        icdAlertsOf (icdVisitsOf currentMonthData) (icdVisitsOf prevMonthData) ++
        svcAlertsOf (costByKey MedicalRecord.DICH_VU currentMonthData)
          (costByKey MedicalRecord.DICH_VU prevMonthData)

/-! ### Lemmas: insertion-ordered maps -/

/-- The key list of a map, in insertion order. -/
def alKeys {α : Type} (m : AList α) : List String :=
  m.map Prod.fst

/-- Total cost collected in a cost map. -/
def sumVals (m : AList ℚ) : ℚ :=
  (m.map Prod.snd).sum

/-- A map has no duplicate keys. -/
def alNoDup {α : Type} (m : AList α) : Prop :=
  (alKeys m).Nodup

theorem alGet_alSet_self {α : Type} (m : AList α) (k : String) (v : α) :
    alGet (alSet m k v) k = some v := by
  induction m with
  | nil => simp [alSet, alGet]
  | cons e t ih =>
    obtain ⟨k', v'⟩ := e
    by_cases h : k' = k
    · subst h; simp [alSet, alGet]
    · simp [alSet, alGet, h, ih]

theorem alGet_alSet_ne {α : Type} (m : AList α) {k k2 : String} (v : α) (h : k ≠ k2) :
    alGet (alSet m k v) k2 = alGet m k2 := by
  induction m with
  | nil => simp [alSet, alGet, h]
  | cons e t ih =>
    obtain ⟨k', v'⟩ := e
    by_cases hk : k' = k
    · subst hk; simp [alSet, alGet, h]
    · simp only [alSet, if_neg hk]
      by_cases hk2 : k' = k2
      · simp [alGet, hk2]
      · simp [alGet, hk2, ih]

theorem alGet_eq_none_iff {α : Type} (m : AList α) (k : String) :
    alGet m k = none ↔ k ∉ alKeys m := by
  induction m with
  | nil => simp [alGet, alKeys]
  | cons e t ih =>
    obtain ⟨k', v'⟩ := e
    by_cases h : k' = k
    · subst h; simp [alGet, alKeys]
    · simp [alGet, alKeys, h, ih, Ne.symm h]

theorem alKeys_cons {α : Type} (e : String × α) (t : AList α) :
    alKeys (e :: t) = e.1 :: alKeys t := rfl

theorem alKeys_alSet {α : Type} (m : AList α) (k : String) (v : α) :
    alKeys (alSet m k v) = if k ∈ alKeys m then alKeys m else alKeys m ++ [k] := by
  induction m with
  | nil => simp [alSet, alKeys]
  | cons e t ih =>
    obtain ⟨k', v'⟩ := e
    by_cases h : k' = k
    · subst h; simp [alSet, alKeys]
    · have hset : alSet ((k', v') :: t) k v = (k', v') :: alSet t k v := by
        simp [alSet, h]
      rw [hset, alKeys_cons, ih, alKeys_cons]
      by_cases hm : k ∈ alKeys t
      · rw [if_pos hm, if_pos (show k ∈ (k', v').1 :: alKeys t from
          List.mem_cons_of_mem _ hm)]
      · have hne : ¬ k ∈ (k', v').1 :: alKeys t := by
          intro hc
          rcases List.mem_cons.mp hc with hc | hc
          · exact h hc.symm
          · exact hm hc
        rw [if_neg hm, if_neg hne]
        rfl

theorem alNoDup_alSet {α : Type} (m : AList α) (k : String) (v : α)
    (h : alNoDup m) : alNoDup (alSet m k v) := by
  unfold alNoDup at *
  rw [alKeys_alSet]
  by_cases hm : k ∈ alKeys m
  · simpa [hm] using h
  · rw [if_neg hm, List.nodup_append]
    refine ⟨h, List.nodup_singleton k, ?_⟩
    intro a ha hk
    exact hm ((List.mem_singleton.mp hk) ▸ ha)

theorem alGet_mem {α : Type} {m : AList α} {k : String} {v : α}
    (h : alGet m k = some v) : (k, v) ∈ m := by
  induction m with
  | nil => simp [alGet] at h
  | cons e t ih =>
    obtain ⟨k', v'⟩ := e
    by_cases hk : k' = k
    · subst hk
      simp only [alGet, if_pos] at h
      rw [Option.some.injEq] at h
      subst h; exact List.mem_cons_self _ _
    · simp only [alGet, if_neg hk] at h
      exact List.mem_cons_of_mem _ (ih h)

theorem mem_alGet_of_noDup {α : Type} {m : AList α} {k : String} {v : α}
    (hnd : alNoDup m) (h : (k, v) ∈ m) : alGet m k = some v := by
  induction m with
  | nil => simp at h
  | cons e t ih =>
    obtain ⟨k', v'⟩ := e
    rcases List.mem_cons.mp h with h1 | h1
    · simp only [Prod.mk.injEq] at h1
      obtain ⟨rfl, rfl⟩ := h1
      simp [alGet]
    · have hk : k' ≠ k := by
        rintro rfl
        have hmem : k' ∈ alKeys t := by
          have := List.mem_map_of_mem Prod.fst h1
          simpa [alKeys] using this
        exact (List.nodup_cons.mp hnd).1 hmem
      have hnd2 : alNoDup t := (List.nodup_cons.mp hnd).2
      simp [alGet, hk, ih hnd2 h1]

theorem sumVals_alSet_add (m : AList ℚ) (k : String) (v : ℚ) :
    sumVals (alSet m k ((alGet m k).getD 0 + v)) = sumVals m + v := by
  induction m with
  | nil => simp [alSet, alGet, sumVals]
  | cons e t ih =>
    obtain ⟨k', v'⟩ := e
    by_cases h : k' = k
    · subst h
      simp [alSet, alGet, sumVals]
      ring
    · simp only [alSet, alGet, if_neg h, sumVals, List.map_cons, List.sum_cons] at *
      rw [ih]
      ring

/-- Summing `(alGet m k).getD 0` along the key list of a duplicate-free map
recovers the value sum. -/
theorem sum_getD_over_keys (m : AList ℚ) (hnd : alNoDup m) :
    ((alKeys m).map fun k => (alGet m k).getD 0).sum = sumVals m := by
  induction m with
  | nil => simp [alKeys, sumVals]
  | cons e t ih =>
    obtain ⟨k', v'⟩ := e
    obtain ⟨hk, hnd2⟩ := List.nodup_cons.mp hnd
    have h1 : ∀ k ∈ alKeys t, alGet ((k', v') :: t) k = alGet t k := by
      intro k hkm
      have : k' ≠ k := by rintro rfl; exact hk hkm
      simp [alGet, this]
    calc ((alKeys ((k', v') :: t)).map fun k => (alGet ((k', v') :: t) k).getD 0).sum
        = v' + ((alKeys t).map fun k => (alGet ((k', v') :: t) k).getD 0).sum := by
          simp [alKeys, alGet]
      _ = v' + ((alKeys t).map fun k => (alGet t k).getD 0).sum := by
          rw [List.map_congr_left fun k hkm => by rw [h1 k hkm]]
      _ = sumVals ((k', v') :: t) := by rw [ih hnd2]; simp [sumVals]

/-! ### Lemmas: the aggregation folds -/

theorem sumVals_costFold (key : MedicalRecord → String) :
    ∀ (ds : List MedicalRecord) (m : AList ℚ),
      sumVals (ds.foldl (costStep key) m) = sumVals m + (ds.map MedicalRecord.THANH_TIEN).sum
  | [], m => by simp
  | d :: ds, m => by
    rw [List.foldl_cons, sumVals_costFold key ds, costStep, sumVals_alSet_add,
      List.map_cons, List.sum_cons]
    ring

theorem alKeys_costStep (key : MedicalRecord → String) (m : AList ℚ) (d : MedicalRecord) :
    alKeys (costStep key m d)
      = if key d ∈ alKeys m then alKeys m else alKeys m ++ [key d] := by
  rw [costStep, alKeys_alSet]

theorem alNoDup_costFold (key : MedicalRecord → String) :
    ∀ (ds : List MedicalRecord) (m : AList ℚ), alNoDup m → alNoDup (ds.foldl (costStep key) m)
  | [], _, h => h
  | d :: ds, m, h => by
    rw [List.foldl_cons]
    exact alNoDup_costFold key ds _ (alNoDup_alSet _ _ _ h)

theorem mem_alKeys_of_alGet_eq_some {α : Type} {m : AList α} {k : String} {v : α}
    (h : alGet m k = some v) : k ∈ alKeys m := by
  have := alGet_mem h
  simpa [alKeys] using List.mem_map_of_mem Prod.fst this

theorem alKeys_visitTypeStep (m : AList String) (d : MedicalRecord) :
    alKeys (visitTypeStep m d)
      = if d.MA_LK ∈ alKeys m then alKeys m else alKeys m ++ [d.MA_LK] := by
  unfold visitTypeStep
  cases h : alGet m d.MA_LK with
  | none =>
    have hmem := (alGet_eq_none_iff m d.MA_LK).mp h
    simp only [alKeys_alSet, if_neg hmem]
  | some cur =>
    have hmem : d.MA_LK ∈ alKeys m := mem_alKeys_of_alGet_eq_some h
    dsimp only
    split_ifs <;> simp [alKeys_alSet, hmem]

theorem alNoDup_visitTypeFold :
    ∀ (ds : List MedicalRecord) (m : AList String),
      alNoDup m → alNoDup (ds.foldl visitTypeStep m)
  | [], _, h => h
  | d :: ds, m, h => by
    rw [List.foldl_cons]
    refine alNoDup_visitTypeFold ds _ ?_
    unfold alNoDup at *
    rw [alKeys_visitTypeStep]
    by_cases hm : d.MA_LK ∈ alKeys m
    · simpa [hm] using h
    · rw [if_neg hm, List.nodup_append]
      refine ⟨h, List.nodup_singleton _, ?_⟩
      intro a ha hk
      exact hm ((List.mem_singleton.mp hk) ▸ ha)

theorem alKeys_costFold_eq_typeFold :
    ∀ (ds : List MedicalRecord) (m1 : AList ℚ) (m2 : AList String),
      alKeys m1 = alKeys m2 →
      alKeys (ds.foldl (costStep MedicalRecord.MA_LK) m1) = alKeys (ds.foldl visitTypeStep m2)
  | [], _, _, h => h
  | d :: ds, m1, m2, h => by
    rw [List.foldl_cons, List.foldl_cons]
    refine alKeys_costFold_eq_typeFold ds _ _ ?_
    rw [alKeys_costStep, alKeys_visitTypeStep, h]

/-- The revenue loop distributes the per-entry cost into exactly one of the
four buckets, so the bucket total accumulates the entry costs. -/
theorem revFold_sum (costs : AList ℚ) :
    ∀ (l : AList String) (acc : VisitTypeRevenue),
      (l.foldl (revStep costs) acc).revenueKhamBenh
          + (l.foldl (revStep costs) acc).revenueDieuTriNgoaiTru
          + (l.foldl (revStep costs) acc).revenueNoiTru
          + (l.foldl (revStep costs) acc).revenueKhac
        = acc.revenueKhamBenh + acc.revenueDieuTriNgoaiTru + acc.revenueNoiTru
          + acc.revenueKhac + (l.map fun e => (alGet costs e.1).getD 0).sum
  | [], acc => by simp
  | e :: l, acc => by
    rw [List.foldl_cons, List.map_cons, List.sum_cons]
    rw [revFold_sum costs l (revStep costs acc e)]
    unfold revStep
    cases bucketOfType e.2 <;> dsimp <;> ring

theorem totalCost_eq_sum (data : List MedicalRecord) :
    totalCost data = (data.map MedicalRecord.THANH_TIEN).sum := by
  suffices h : ∀ (l : List MedicalRecord) (a : ℚ),
      l.foldl (fun sum d => sum + d.THANH_TIEN) a = a + (l.map MedicalRecord.THANH_TIEN).sum by
    simpa [totalCost] using h data 0
  intro l
  induction l with
  | nil => simp
  | cons d l ih => intro a; simp [ih]; ring

/-! ### C10 and C6 -/

/-- C10: the Anomaly Detector applied to the empty record collection returns
the empty alert list (the informational alert needs non-empty input). -/
theorem generateAlerts_nil : generateAlerts [] = [] := rfl

/-- C6: the KPI `totalCost` is the sum of `THANH_TIEN` over all rows, and the
four visit-type revenue buckets sum exactly to `totalCost`: every visit is
counted once in `visitTypeMap`, contributes its accumulated `visitCostMap`
cost, and the bucket chain puts it in exactly one bucket. -/
theorem kpi_visit_type_partition (data : List MedicalRecord) :
    totalCost data = (data.map MedicalRecord.THANH_TIEN).sum ∧
    (revenueByVisitType data).revenueKhamBenh
        + (revenueByVisitType data).revenueDieuTriNgoaiTru
        + (revenueByVisitType data).revenueNoiTru
        + (revenueByVisitType data).revenueKhac
      = totalCost data := by
  refine ⟨totalCost_eq_sum data, ?_⟩
  have hrev := revFold_sum (visitCostMap data) (visitTypeMap data) ⟨0, 0, 0, 0⟩
  unfold revenueByVisitType
  rw [hrev]
  have hkeys : alKeys (visitCostMap data) = alKeys (visitTypeMap data) :=
    alKeys_costFold_eq_typeFold data [] [] rfl
  have hnd : alNoDup (visitCostMap data) :=
    alNoDup_costFold MedicalRecord.MA_LK data [] (by simp [alNoDup, alKeys])
  have hsum : ((visitTypeMap data).map fun e => (alGet (visitCostMap data) e.1).getD 0).sum
      = sumVals (visitCostMap data) := by
    have h1 : ((visitTypeMap data).map fun e => (alGet (visitCostMap data) e.1).getD 0)
        = ((alKeys (visitTypeMap data)).map fun k => (alGet (visitCostMap data) k).getD 0) := by
      unfold alKeys
      rw [List.map_map]
      rfl
    rw [h1, ← hkeys, sum_getD_over_keys _ hnd]
  rw [hsum]
  have h2 : sumVals (visitCostMap data) = (data.map MedicalRecord.THANH_TIEN).sum := by
    have := sumVals_costFold MedicalRecord.MA_LK data []
    simpa [visitCostMap, sumVals] using this
  rw [h2, totalCost_eq_sum data]
  dsimp
  ring

/-! ### Lemmas: characters and digit runs -/

theorem takeWhile_all {p : Char → Bool} :
    ∀ {l : List Char}, (∀ c ∈ l, p c = true) → l.takeWhile p = l
  | [], _ => rfl
  | c :: l, h => by
    rw [List.takeWhile_cons, if_pos (h c (List.mem_cons_self c l)),
      takeWhile_all fun c' hc' => h c' (List.mem_cons_of_mem _ hc')]

theorem dropWhile_all {p : Char → Bool} :
    ∀ {l : List Char}, (∀ c ∈ l, p c = true) → l.dropWhile p = []
  | [], _ => rfl
  | c :: l, h => by
    rw [List.dropWhile_cons, if_pos (h c (List.mem_cons_self c l))]
    exact dropWhile_all fun c' hc' => h c' (List.mem_cons_of_mem _ hc')

theorem takeWhile_append_stop {p : Char → Bool} (sep : Char) (r : List Char)
    (hsep : p sep = false) :
    ∀ (a : List Char), (∀ c ∈ a, p c = true) → (a ++ sep :: r).takeWhile p = a
  | [], _ => by simp [List.takeWhile_cons, hsep]
  | c :: a, h => by
    rw [List.cons_append, List.takeWhile_cons, if_pos (h c (List.mem_cons_self c a)),
      takeWhile_append_stop sep r hsep a fun c' hc' => h c' (List.mem_cons_of_mem _ hc')]

theorem dropWhile_append_stop {p : Char → Bool} (sep : Char) (r : List Char)
    (hsep : p sep = false) :
    ∀ (a : List Char), (∀ c ∈ a, p c = true) → (a ++ sep :: r).dropWhile p = sep :: r
  | [], _ => by simp [List.dropWhile_cons, hsep]
  | c :: a, h => by
    rw [List.cons_append, List.dropWhile_cons, if_pos (h c (List.mem_cons_self c a))]
    exact dropWhile_append_stop sep r hsep a fun c' hc' => h c' (List.mem_cons_of_mem _ hc')

/-- A character satisfying a decidable-false property differs from one
satisfying it: digits are never separators, spaces, or signs. -/
theorem ne_of_isDigit {c c' : Char} (h : Char.isDigit c = true)
    (h' : Char.isDigit c' = false) : c ≠ c' := by
  intro he
  subst he
  rw [h] at h'
  cases h'

theorem isJsSpace_false_of_isDigit {c : Char} (h : Char.isDigit c = true) :
    isJsSpace c = false := by
  have hval := h
  unfold Char.isDigit at hval
  unfold isJsSpace
  rw [decide_eq_false_iff_not]
  rintro (rfl | rfl | rfl | rfl | rfl | rfl) <;> simp_all

/-- Leading whitespace skipping leaves a digit-headed list unchanged. -/
theorem dropWhile_space_digit_head {c : Char} (r : List Char)
    (h : Char.isDigit c = true) : (c :: r).dropWhile isJsSpace = c :: r := by
  rw [List.dropWhile_cons, if_neg]
  rw [isJsSpace_false_of_isDigit h]
  simp

/-! ### Lemmas: `jsParseFloat` on plain decimal numerals -/

theorem jsParseFloat_int_numeral (intd : List Char) (hne : intd ≠ [])
    (hdig : ∀ c ∈ intd, Char.isDigit c = true) :
    jsParseFloat ⟨intd⟩ = some (digitsVal intd : ℚ) := by
  obtain ⟨c, r, rfl⟩ := List.exists_cons_of_ne_nil hne
  have hc := hdig c (List.mem_cons_self c r)
  have hneg : ¬ ((c :: r).head? = some '-') := by
    simp only [List.head?_cons, Option.some.injEq]
    exact ne_of_isDigit hc (by decide)
  have hneg2 : ¬ ((c :: r).head? = some '+') := by
    simp only [List.head?_cons, Option.some.injEq]
    exact ne_of_isDigit hc (by decide)
  have hP : ((c :: r).head? = some '-') = False := eq_false hneg
  have hP2 : ((c :: r).head? = some '+') = False := eq_false hneg2
  unfold jsParseFloat
  rw [show (String.mk (c :: r)).data = c :: r from rfl,
    dropWhile_space_digit_head r hc]
  dsimp only
  simp only [hP, hP2, false_or, if_false]
  rw [takeWhile_all hdig, dropWhile_all hdig]
  simp [digitsVal]

theorem jsParseFloat_frac_numeral (intd frac : List Char)
    (hi : intd ≠ [])
    (hdi : ∀ c ∈ intd, Char.isDigit c = true)
    (hdf : ∀ c ∈ frac, Char.isDigit c = true) :
    jsParseFloat ⟨intd ++ '.' :: frac⟩
      = some ((digitsVal intd : ℚ) + (digitsVal frac : ℚ) / 10 ^ frac.length) := by
  obtain ⟨c, r, rfl⟩ := List.exists_cons_of_ne_nil hi
  have hc := hdi c (List.mem_cons_self c r)
  have hneg : ¬ ((c :: (r ++ '.' :: frac)).head? = some '-') := by
    simp only [List.head?_cons, Option.some.injEq]
    exact ne_of_isDigit hc (by decide)
  have hneg2 : ¬ ((c :: (r ++ '.' :: frac)).head? = some '+') := by
    simp only [List.head?_cons, Option.some.injEq]
    exact ne_of_isDigit hc (by decide)
  have hP : ((c :: (r ++ '.' :: frac)).head? = some '-') = False := eq_false hneg
  have hP2 : ((c :: (r ++ '.' :: frac)).head? = some '+') = False := eq_false hneg2
  unfold jsParseFloat
  rw [show (String.mk ((c :: r) ++ '.' :: frac)).data = c :: (r ++ '.' :: frac) from rfl,
    dropWhile_space_digit_head _ hc]
  dsimp only
  simp only [hP, hP2, false_or, if_false]
  rw [← List.cons_append,
    takeWhile_append_stop '.' frac (by decide) (c :: r) hdi,
    dropWhile_append_stop '.' frac (by decide) (c :: r) hdi]
  simp only [List.head?_cons, Option.some.injEq, if_pos rfl, List.tail_cons]
  rw [takeWhile_all hdf, dropWhile_all hdf]
  rw [if_neg (by simp [List.isEmpty_iff])]
  simp

/-! ### Projections of the normalizer output -/

theorem processRawRow_SO_LUONG (now : JSDate) (i : Nat) (row : RawMedicalRecord) :
    (processRawRow now i row).SO_LUONG = jsParseFloat (numSource row.SO_LUONG) := rfl

theorem processRawRow_THANH_TIEN (now : JSDate) (i : Nat) (row : RawMedicalRecord) :
    (processRawRow now i row).THANH_TIEN = jsParseFloat (numSource row.THANH_TIEN) := rfl

theorem processRawRow_NGAY_THONG_KE (now : JSDate) (i : Nat) (row : RawMedicalRecord) :
    (processRawRow now i row).NGAY_THONG_KE =
      (((parseDateField row.NGAY_THANH_TOAN).orElse fun _ =>
          parseDateField row.NGAY_RA_VIEN).orElse fun _ =>
        parseDateField row.NGAY_VAO_VIEN).getD now := rfl

theorem processRawRow_SO_NGAY_DTRI (now : JSDate) (i : Nat) (row : RawMedicalRecord) :
    (processRawRow now i row).SO_NGAY_DTRI =
      (let soNgayDtri0 := jsParseInt (strOr row.SO_NGAY_DTRI "0")
       let soNgayDtri1 : Option Int :=
         if (soNgayDtri0 = some 0 ∨ soNgayDtri0 = none) then
           match parseDateField row.NGAY_RA_VIEN, parseDateField row.NGAY_VAO_VIEN with
           | some ra, some vao => some (differenceInDays ra vao + 1)
           | _, _ => soNgayDtri0
         else soNgayDtri0
       soNgayDtri1.getD 0) := rfl

theorem numSource_some_nonempty (s : String) (l : List Char)
    (h : s.data.filter (· ≠ ',') = l) (hne : l ≠ []) : numSource (some s) = ⟨l⟩ := by
  unfold numSource
  dsimp only
  rw [h, if_neg]
  intro hc
  exact hne (by simpa [String.ext_iff] using hc)

/-! ### C3: numeric coercion in the Normalizer -/

def rowC3 : RawMedicalRecord := { SO_LUONG := some "abc", THANH_TIEN := some "-5" }

/-- C3 counterexample: on the row with `SO_LUONG = "abc"` the coercion yields
NaN (modelled `none`), not the claimed default 0, and on `THANH_TIEN = "-5"`
it yields −5 < 0, refuting "on parse failure the field defaults to 0" and
"both output fields are always non-negative". -/
theorem normalizer_numeric_claim_false :
    (processRawRow ⟨2025, 6, 1, 0⟩ 0 rowC3).SO_LUONG = none ∧
    (processRawRow ⟨2025, 6, 1, 0⟩ 0 rowC3).THANH_TIEN = some (-5) ∧ (-5 : ℚ) < 0 :=
  ⟨rfl, by with_unfolding_all rfl, by norm_num⟩

/-- C3 (amended): the Normalizer coerces `quantity`/`lineAmount` by stripping
comma separators and parsing a decimal prefix; an absent or empty (after
stripping) field defaults to 0, and a stripped field that is a plain decimal
numeral (digits, optionally with a fraction part) parses to its exact
non-negative value.  A non-empty unparseable string however yields NaN
(`none`), not 0, and a leading sign is honoured, so negative values occur. -/
theorem normalizer_numeric_coercion (now : JSDate) (i : Nat) (row : RawMedicalRecord) :
    (row.SO_LUONG = none → (processRawRow now i row).SO_LUONG = some 0) ∧
    (row.THANH_TIEN = none → (processRawRow now i row).THANH_TIEN = some 0) ∧
    (∀ s : String, row.SO_LUONG = some s → s.data.filter (· ≠ ',') = [] →
      (processRawRow now i row).SO_LUONG = some 0) ∧
    (∀ (s : String) (intd : List Char), row.SO_LUONG = some s →
      s.data.filter (· ≠ ',') = intd → intd ≠ [] →
      (∀ c ∈ intd, Char.isDigit c = true) →
      (processRawRow now i row).SO_LUONG = some (digitsVal intd : ℚ) ∧
        (0 : ℚ) ≤ (digitsVal intd : ℚ)) ∧
    (∀ (s : String) (intd frac : List Char), row.THANH_TIEN = some s →
      s.data.filter (· ≠ ',') = intd ++ '.' :: frac → intd ≠ [] →
      (∀ c ∈ intd, Char.isDigit c = true) → (∀ c ∈ frac, Char.isDigit c = true) →
      (processRawRow now i row).THANH_TIEN
          = some ((digitsVal intd : ℚ) + (digitsVal frac : ℚ) / 10 ^ frac.length) ∧
        (0 : ℚ) ≤ (digitsVal intd : ℚ) + (digitsVal frac : ℚ) / 10 ^ frac.length) := by
  refine ⟨?_, ?_, ?_, ?_, ?_⟩
  · intro h
    rw [processRawRow_SO_LUONG, h]
    with_unfolding_all rfl
  · intro h
    rw [processRawRow_THANH_TIEN, h]
    with_unfolding_all rfl
  · intro s hs hempty
    rw [processRawRow_SO_LUONG, hs]
    rw [show numSource (some s) = "0" by
      unfold numSource; dsimp only; rw [hempty]; rfl]
    with_unfolding_all rfl
  · intro s intd hs hfilter hne hdig
    rw [processRawRow_SO_LUONG, hs, numSource_some_nonempty s intd hfilter hne]
    exact ⟨jsParseFloat_int_numeral intd hne hdig, by positivity⟩
  · intro s intd frac hs hfilter hne hdi hdf
    have hne2 : intd ++ '.' :: frac ≠ [] := by simp
    rw [processRawRow_THANH_TIEN, hs,
      numSource_some_nonempty s (intd ++ '.' :: frac) hfilter hne2]
    exact ⟨jsParseFloat_frac_numeral intd frac hne hdi hdf, by positivity⟩

/-- Witness for C3: a comma-separated quantity and a fractional amount parse
to their exact non-negative values. -/
theorem normalizer_numeric_coercion_witness :
    (processRawRow ⟨2025, 6, 1, 0⟩ 0
        { SO_LUONG := some "1,234", THANH_TIEN := some "12.5" }).SO_LUONG
      = some 1234 ∧
    (processRawRow ⟨2025, 6, 1, 0⟩ 0
        { SO_LUONG := some "1,234", THANH_TIEN := some "12.5" }).THANH_TIEN
      = some (25 / 2) := by
  have h := normalizer_numeric_coercion ⟨2025, 6, 1, 0⟩ 0
    { SO_LUONG := some "1,234", THANH_TIEN := some "12.5" }
  constructor
  · have h4 := (h.2.2.2.1 "1,234" ['1', '2', '3', '4'] rfl (by decide) (by decide)
      (by decide)).1
    rw [h4, show digitsVal ['1', '2', '3', '4'] = 1234 from by decide]
    norm_num
  · have h5 := (h.2.2.2.2 "12.5" ['1', '2'] ['5'] rfl (by decide) (by decide)
      (by decide) (by decide)).1
    rw [h5, show digitsVal ['1', '2'] = 12 from by decide,
      show digitsVal ['5'] = 5 from by decide]
    norm_num

/-! ### C4: the treatmentDays fallback -/

def rowC4 : RawMedicalRecord :=
  { SO_NGAY_DTRI := some "0", NGAY_VAO_VIEN := some "01/01/2024",
    NGAY_RA_VIEN := some "03/01/2024" }

def rowC4n : RawMedicalRecord := { SO_NGAY_DTRI := some "-3" }

/-- C4 counterexample: a source value of 0 is NOT kept — JS `!0` is truthy, so
with both dates parseable the value is recomputed to (discharge − admission)
+ 1 = 3; and a source value of −3 is kept, so the output is not always ≥ 0. -/
theorem treatmentDays_claim_false :
    (processRawRow ⟨2025, 6, 1, 0⟩ 0 rowC4).SO_NGAY_DTRI = 3 ∧
    (processRawRow ⟨2025, 6, 1, 0⟩ 0 rowC4n).SO_NGAY_DTRI = -3 := by
  decide

/-- C4 (amended): `treatmentDays` takes the source value whenever it parses to
a non-zero integer (negative values included); a source value of 0, absent, or
unparseable falls through to (discharge − admission) + 1 when both dates
parse, and to 0 otherwise.  The output may be negative. -/
theorem treatmentDays_fallback (now : JSDate) (i : Nat) (row : RawMedicalRecord) :
    (∀ n : Int, jsParseInt (strOr row.SO_NGAY_DTRI "0") = some n → n ≠ 0 →
      (processRawRow now i row).SO_NGAY_DTRI = n) ∧
    ((jsParseInt (strOr row.SO_NGAY_DTRI "0") = some 0 ∨
        jsParseInt (strOr row.SO_NGAY_DTRI "0") = none) →
      ∀ ra vao, parseDateField row.NGAY_RA_VIEN = some ra →
        parseDateField row.NGAY_VAO_VIEN = some vao →
        (processRawRow now i row).SO_NGAY_DTRI = differenceInDays ra vao + 1) ∧
    ((jsParseInt (strOr row.SO_NGAY_DTRI "0") = some 0 ∨
        jsParseInt (strOr row.SO_NGAY_DTRI "0") = none) →
      (parseDateField row.NGAY_RA_VIEN = none ∨ parseDateField row.NGAY_VAO_VIEN = none) →
      (processRawRow now i row).SO_NGAY_DTRI = 0) := by
  have hproj := processRawRow_SO_NGAY_DTRI now i row
  refine ⟨?_, ?_, ?_⟩
  · intro n hp hn
    rw [hproj]
    dsimp only
    rw [hp, if_neg (by simp [hn])]
    rfl
  · intro hp ra vao hra hvao
    rw [hproj]
    dsimp only
    rcases hp with hp | hp <;> rw [hp, hra, hvao] <;> simp
  · intro hp hnone
    rw [hproj]
    dsimp only
    rcases hp with hp | hp <;> rw [hp] <;>
      rcases hnone with hnone | hnone <;>
        cases hA : parseDateField row.NGAY_RA_VIEN <;>
          cases hB : parseDateField row.NGAY_VAO_VIEN <;> simp_all

/-- Witness for C4: a non-zero parseable source value is kept as-is. -/
theorem treatmentDays_fallback_witness :
    (processRawRow ⟨2025, 6, 1, 0⟩ 0 { SO_NGAY_DTRI := some "7" }).SO_NGAY_DTRI = 7 :=
  (treatmentDays_fallback ⟨2025, 6, 1, 0⟩ 0 _).1 7 (by decide) (by decide)

/-! ### C8: the statDate priority chain -/

/-- C8: `statDate` is never null (it is a total `JSDate`) and follows the
priority chain payment date, else discharge date, else admission date, else
the processing time `now`; in particular a row where only the admission date
parses gets that admission date. -/
theorem statDate_priority_chain (now : JSDate) (i : Nat) (row : RawMedicalRecord) :
    (∀ dp, parseDateField row.NGAY_THANH_TOAN = some dp →
      (processRawRow now i row).NGAY_THONG_KE = dp) ∧
    (∀ dr, parseDateField row.NGAY_THANH_TOAN = none →
      parseDateField row.NGAY_RA_VIEN = some dr →
      (processRawRow now i row).NGAY_THONG_KE = dr) ∧
    (∀ dv, parseDateField row.NGAY_THANH_TOAN = none →
      parseDateField row.NGAY_RA_VIEN = none →
      parseDateField row.NGAY_VAO_VIEN = some dv →
      (processRawRow now i row).NGAY_THONG_KE = dv) ∧
    (parseDateField row.NGAY_THANH_TOAN = none →
      parseDateField row.NGAY_RA_VIEN = none →
      parseDateField row.NGAY_VAO_VIEN = none →
      (processRawRow now i row).NGAY_THONG_KE = now) := by
  have hproj := processRawRow_NGAY_THONG_KE now i row
  refine ⟨?_, ?_, ?_, ?_⟩ <;> intros <;> simp_all [Option.orElse]

/-- Witness for C8: a row whose only parseable date is the admission date gets
`statDate` equal to that admission date. -/
theorem statDate_priority_chain_witness :
    (processRawRow ⟨2025, 6, 1, 0⟩ 0
        { NGAY_VAO_VIEN := some "05/03/2024" }).NGAY_THONG_KE = ⟨2024, 3, 5, 0⟩ :=
  (statDate_priority_chain ⟨2025, 6, 1, 0⟩ 0 _).2.2.1 ⟨2024, 3, 5, 0⟩ rfl rfl (by decide)

/-! ### C1: the category revenue partition -/

theorem foldl_if_add (p : MedicalRecord → Prop) [DecidablePred p] :
    ∀ (l : List MedicalRecord) (a : ℚ),
      l.foldl (fun sum d => if p d then sum + d.THANH_TIEN else sum) a
        = a + (l.map fun d => if p d then d.THANH_TIEN else 0).sum
  | [], a => by simp
  | d :: l, a => by
    rw [List.foldl_cons, foldl_if_add p l, List.map_cons, List.sum_cons]
    by_cases h : p d
    · simp [h]
      ring
    · simp [h]

theorem sumMap_add (f g : MedicalRecord → ℚ) :
    ∀ l : List MedicalRecord,
      (l.map fun d => f d + g d).sum = (l.map f).sum + (l.map g).sum
  | [] => by simp
  | d :: l => by
    rw [List.map_cons, List.sum_cons, List.map_cons, List.sum_cons,
      List.map_cons, List.sum_cons, sumMap_add f g l]
    ring

theorem totalMedicineRevenue_eq_sum (data : List MedicalRecord) :
    totalMedicineRevenue data
      = (data.map fun d =>
          if isMedicineGroup (jsTrim d.TEN_NHOM) then d.THANH_TIEN else 0).sum := by
  unfold totalMedicineRevenue
  rw [foldl_if_add (fun d => isMedicineGroup (jsTrim d.TEN_NHOM) = true) data 0, zero_add]

theorem totalCDHARevenue_eq_sum (data : List MedicalRecord) :
    totalCDHARevenue data
      = (data.map fun d =>
          if isCDHAGroup (jsTrim d.TEN_NHOM) then d.THANH_TIEN else 0).sum := by
  unfold totalCDHARevenue
  rw [foldl_if_add (fun d => isCDHAGroup (jsTrim d.TEN_NHOM) = true) data 0, zero_add]

theorem totalLabRevenue_eq_sum (data : List MedicalRecord) :
    totalLabRevenue data
      = (data.map fun d =>
          if isLabGroup (jsTrim d.TEN_NHOM) then d.THANH_TIEN else 0).sum := by
  unfold totalLabRevenue
  rw [foldl_if_add (fun d => isLabGroup (jsTrim d.TEN_NHOM) = true) data 0, zero_add]

theorem totalBedRevenue_eq_sum (data : List MedicalRecord) :
    totalBedRevenue data
      = (data.map fun d =>
          if isBedGroup (jsTrim d.TEN_NHOM) then d.THANH_TIEN else 0).sum := by
  unfold totalBedRevenue
  rw [foldl_if_add (fun d => isBedGroup (jsTrim d.TEN_NHOM) = true) data 0, zero_add]

theorem otherCategoryRevenue_eq_sum (data : List MedicalRecord) :
    otherCategoryRevenue data
      = (data.map fun d =>
          if ¬ (isMedicineGroup (jsTrim d.TEN_NHOM) ∨ isCDHAGroup (jsTrim d.TEN_NHOM) ∨
              isLabGroup (jsTrim d.TEN_NHOM) ∨ isBedGroup (jsTrim d.TEN_NHOM)) then
            d.THANH_TIEN
          else 0).sum := by
  unfold otherCategoryRevenue
  rw [foldl_if_add
    (fun d => ¬ (isMedicineGroup (jsTrim d.TEN_NHOM) = true ∨
      isCDHAGroup (jsTrim d.TEN_NHOM) = true ∨ isLabGroup (jsTrim d.TEN_NHOM) = true ∨
      isBedGroup (jsTrim d.TEN_NHOM) = true)) data 0, zero_add]

def rowC1 : MedicalRecord := { MA_LK := "v1", TEN_NHOM := "xn thuoc", THANH_TIEN := 1 }

/-- C1 counterexample: the label "xn thuoc" matches both the Medicine
predicate (keyword 'thuoc') and the Lab predicate (keyword 'xn'), so the
independent category reduces count its row twice: the five category sums add
to 2 while the total cost is 1. -/
theorem category_partition_claim_false :
    totalMedicineRevenue [rowC1] + totalCDHARevenue [rowC1] + totalLabRevenue [rowC1]
        + totalBedRevenue [rowC1] + otherCategoryRevenue [rowC1] = 2 ∧
    totalCost [rowC1] = 1 ∧ (2 : ℚ) ≠ 1 :=
  ⟨by with_unfolding_all rfl, by with_unfolding_all rfl, by norm_num⟩

/-- C1 (amended): the four category reduces are independent, so a row is
counted once per matching predicate; whenever every row's trimmed group label
matches at most one of the four category predicates, the medicine, imaging,
lab and bed sums plus the residual other sum partition the total cost
exactly. -/
theorem category_revenue_partition (data : List MedicalRecord)
    (h : ∀ d ∈ data,
      (if isMedicineGroup (jsTrim d.TEN_NHOM) then 1 else 0)
          + (if isCDHAGroup (jsTrim d.TEN_NHOM) then 1 else 0)
          + (if isLabGroup (jsTrim d.TEN_NHOM) then 1 else 0)
          + (if isBedGroup (jsTrim d.TEN_NHOM) then 1 else 0) ≤ (1 : Nat)) :
    totalMedicineRevenue data + totalCDHARevenue data + totalLabRevenue data
        + totalBedRevenue data + otherCategoryRevenue data = totalCost data := by
  rw [totalMedicineRevenue_eq_sum, totalCDHARevenue_eq_sum, totalLabRevenue_eq_sum,
    totalBedRevenue_eq_sum, otherCategoryRevenue_eq_sum, totalCost_eq_sum,
    ← sumMap_add, ← sumMap_add, ← sumMap_add, ← sumMap_add]
  refine congrArg List.sum (List.map_congr_left ?_)
  intro d hd
  have hc := h d hd
  by_cases h1 : isMedicineGroup (jsTrim d.TEN_NHOM) <;>
    by_cases h2 : isCDHAGroup (jsTrim d.TEN_NHOM) <;>
      by_cases h3 : isLabGroup (jsTrim d.TEN_NHOM) <;>
        by_cases h4 : isBedGroup (jsTrim d.TEN_NHOM) <;>
          simp [h1, h2, h3, h4] at hc ⊢

def exC1 : List MedicalRecord :=
  [{ MA_LK := "v1", TEN_NHOM := "4", THANH_TIEN := 5 },
   { MA_LK := "v2", TEN_NHOM := "zzz", THANH_TIEN := 7 }]

/-- Witness for C1: on a collection whose labels each match at most one
category predicate, the five sums partition the total cost. -/
theorem category_revenue_partition_witness :
    totalMedicineRevenue exC1 + totalCDHARevenue exC1 + totalLabRevenue exC1
        + totalBedRevenue exC1 + otherCategoryRevenue exC1 = totalCost exC1 :=
  category_revenue_partition exC1 (by decide)

/-! ### C2: KPI classifier vs chart classifier -/

theorem toLower_digit {c : Char} (h : Char.isDigit c = true) : c.toLower = c := by
  unfold Char.isDigit at h
  rw [Bool.and_eq_true, decide_eq_true_eq, decide_eq_true_eq] at h
  have h57 : c.val.toNat ≤ 57 := UInt32.toNat_le_of_le (by norm_num [UInt32.size]) h.2
  unfold Char.toLower
  rw [if_neg]
  intro hc
  have : Char.toNat c = c.val.toNat := rfl
  omega

theorem lowerStr_digits (g : String) (h : ∀ c ∈ g.data, Char.isDigit c = true) :
    lowerStr g = g := by
  unfold lowerStr
  rw [List.map_congr_left fun c hc => toLower_digit (h c hc), List.map_id']

theorem isPrefixOf_subset {pat s : List Char} (h : pat.isPrefixOf s = true) :
    ∀ c ∈ pat, c ∈ s := by
  induction pat generalizing s with
  | nil => simp
  | cons a as ih =>
    cases s with
    | nil => simp [List.isPrefixOf] at h
    | cons b bs =>
      simp only [List.isPrefixOf, Bool.and_eq_true, beq_iff_eq] at h
      intro c hc
      rcases List.mem_cons.mp hc with rfl | hc
      · rw [h.1]; exact List.mem_cons_self _ _
      · exact List.mem_cons_of_mem _ (ih h.2 c hc)

theorem hasSub_subset (pat : List Char) :
    ∀ s : List Char, hasSub s pat = true → ∀ c ∈ pat, c ∈ s := by
  intro s
  induction s with
  | nil =>
    intro h c hc
    rw [hasSub] at h
    split at h
    · exact isPrefixOf_subset (by assumption) c hc
    · simp at h
  | cons hd tl ih =>
    intro h c hc
    rw [hasSub] at h
    split at h
    · exact isPrefixOf_subset (by assumption) c hc
    · exact List.mem_cons_of_mem _ (ih h c hc)

/-- A keyword containing a non-digit character never occurs inside an
all-digit label. -/
theorem strIncludes_digit_label (g : String) (hg : ∀ c ∈ g.data, Char.isDigit c = true)
    (pat : String) (c0 : Char) (hc : c0 ∈ pat.data) (h0 : Char.isDigit c0 = false) :
    strIncludes g pat = false := by
  unfold strIncludes
  cases hcase : hasSub g.data pat.data with
  | false => rfl
  | true =>
    have hmem := hasSub_subset pat.data g.data hcase c0 hc
    rw [hg c0 hmem] at h0
    cases h0

theorem isMedicineGroup_digits (g : String)
    (hg : ∀ c ∈ g.data, Char.isDigit c = true) :
    isMedicineGroup g = (g == "4" || g == "5" || g == "6") := by
  unfold isMedicineGroup normalizeStr
  rw [lowerStr_digits g hg]
  dsimp only
  rw [strIncludes_digit_label g hg "thuốc" 't' (by decide) (by decide),
    strIncludes_digit_label g hg "thuoc" 't' (by decide) (by decide),
    strIncludes_digit_label g hg "dược" 'd' (by decide) (by decide),
    strIncludes_digit_label g hg "duoc" 'd' (by decide) (by decide),
    strIncludes_digit_label g hg "huyết thanh" 'h' (by decide) (by decide),
    strIncludes_digit_label g hg "vắc xin" 'v' (by decide) (by decide)]
  simp

theorem isCDHAGroup_digits (g : String)
    (hg : ∀ c ∈ g.data, Char.isDigit c = true) :
    isCDHAGroup g = (g == "2" || g == "3") := by
  unfold isCDHAGroup normalizeStr
  rw [lowerStr_digits g hg]
  dsimp only
  rw [strIncludes_digit_label g hg "chẩn đoán hình ảnh" 'c' (by decide) (by decide),
    strIncludes_digit_label g hg "cđha" 'c' (by decide) (by decide),
    strIncludes_digit_label g hg "x-quang" 'x' (by decide) (by decide),
    strIncludes_digit_label g hg "xquang" 'x' (by decide) (by decide),
    strIncludes_digit_label g hg "siêu âm" 's' (by decide) (by decide),
    strIncludes_digit_label g hg "ct scanner" 'c' (by decide) (by decide),
    strIncludes_digit_label g hg "cắt lớp" 'c' (by decide) (by decide),
    strIncludes_digit_label g hg "mri" 'm' (by decide) (by decide),
    strIncludes_digit_label g hg "cộng hưởng từ" 'c' (by decide) (by decide)]
  simp

theorem isLabGroup_digits (g : String)
    (hg : ∀ c ∈ g.data, Char.isDigit c = true) :
    isLabGroup g = (g == "1") := by
  unfold isLabGroup normalizeStr
  rw [lowerStr_digits g hg]
  dsimp only
  rw [strIncludes_digit_label g hg "xét nghiệm" 'x' (by decide) (by decide),
    strIncludes_digit_label g hg "xn" 'x' (by decide) (by decide),
    strIncludes_digit_label g hg "huyết học" 'h' (by decide) (by decide),
    strIncludes_digit_label g hg "sinh hóa" 's' (by decide) (by decide),
    strIncludes_digit_label g hg "vi sinh" 'v' (by decide) (by decide),
    strIncludes_digit_label g hg "miễn dịch" 'm' (by decide) (by decide),
    strIncludes_digit_label g hg "giải phẫu bệnh" 'g' (by decide) (by decide)]
  simp

theorem isBedGroup_digits (g : String)
    (hg : ∀ c ∈ g.data, Char.isDigit c = true) :
    isBedGroup g = (g == "14" || g == "15") := by
  unfold isBedGroup normalizeStr
  rw [lowerStr_digits g hg]
  dsimp only
  rw [strIncludes_digit_label g hg "giường" 'g' (by decide) (by decide),
    strIncludes_digit_label g hg "giuong" 'g' (by decide) (by decide)]
  simp

theorem chartIsMedicine_digits (g : String)
    (hg : ∀ c ∈ g.data, Char.isDigit c = true) :
    chartIsMedicine g = (g == "4" || g == "5" || g == "6") := by
  unfold chartIsMedicine
  rw [lowerStr_digits g hg]
  dsimp only
  rw [strIncludes_digit_label g hg "thuốc" 't' (by decide) (by decide),
    strIncludes_digit_label g hg "dược" 'd' (by decide) (by decide),
    strIncludes_digit_label g hg "vắc xin" 'v' (by decide) (by decide)]
  simp

theorem chartIsCLS_digits (g : String)
    (hg : ∀ c ∈ g.data, Char.isDigit c = true) :
    chartIsCLS g = (g == "1" || g == "2" || g == "3") := by
  unfold chartIsCLS
  rw [lowerStr_digits g hg]
  dsimp only
  rw [strIncludes_digit_label g hg "xét nghiệm" 'x' (by decide) (by decide),
    strIncludes_digit_label g hg "chẩn đoán" 'c' (by decide) (by decide),
    strIncludes_digit_label g hg "siêu âm" 's' (by decide) (by decide),
    strIncludes_digit_label g hg "x-quang" 'x' (by decide) (by decide),
    strIncludes_digit_label g hg "pttt" 'p' (by decide) (by decide)]
  simp

theorem chartIsBed_digits (g : String)
    (hg : ∀ c ∈ g.data, Char.isDigit c = true) :
    chartIsBed g = (g == "14" || g == "15") := by
  unfold chartIsBed
  rw [lowerStr_digits g hg]
  dsimp only
  rw [strIncludes_digit_label g hg "giường" 'g' (by decide) (by decide)]
  simp

theorem chartRevStep_med (acc : RevenueStructure) (d : MedicalRecord)
    (h1 : chartIsMedicine (jsTrim d.TEN_NHOM)) :
    chartRevStep acc d = { acc with revMedicine := acc.revMedicine + d.THANH_TIEN } := by
  unfold chartRevStep
  dsimp only
  rw [if_pos h1]

theorem chartRevStep_cls (acc : RevenueStructure) (d : MedicalRecord)
    (h1 : ¬ chartIsMedicine (jsTrim d.TEN_NHOM)) (h2 : chartIsCLS (jsTrim d.TEN_NHOM)) :
    chartRevStep acc d = { acc with revCLS := acc.revCLS + d.THANH_TIEN } := by
  unfold chartRevStep
  dsimp only
  rw [if_neg h1, if_pos h2]

theorem chartRevStep_bed (acc : RevenueStructure) (d : MedicalRecord)
    (h1 : ¬ chartIsMedicine (jsTrim d.TEN_NHOM)) (h2 : ¬ chartIsCLS (jsTrim d.TEN_NHOM))
    (h3 : chartIsBed (jsTrim d.TEN_NHOM)) :
    chartRevStep acc d = { acc with revBed := acc.revBed + d.THANH_TIEN } := by
  unfold chartRevStep
  dsimp only
  rw [if_neg h1, if_neg h2, if_pos h3]

theorem chartRevStep_other (acc : RevenueStructure) (d : MedicalRecord)
    (h1 : ¬ chartIsMedicine (jsTrim d.TEN_NHOM)) (h2 : ¬ chartIsCLS (jsTrim d.TEN_NHOM))
    (h3 : ¬ chartIsBed (jsTrim d.TEN_NHOM)) :
    chartRevStep acc d = { acc with revOther := acc.revOther + d.THANH_TIEN } := by
  unfold chartRevStep
  dsimp only
  rw [if_neg h1, if_neg h2, if_neg h3]

theorem chartRevFold_med :
    ∀ (l : List MedicalRecord) (acc : RevenueStructure),
      (l.foldl chartRevStep acc).revMedicine
        = acc.revMedicine + (l.map fun d =>
            if chartIsMedicine (jsTrim d.TEN_NHOM) then d.THANH_TIEN else 0).sum
  | [], acc => by simp
  | d :: l, acc => by
    rw [List.foldl_cons, chartRevFold_med l, List.map_cons, List.sum_cons]
    by_cases h1 : chartIsMedicine (jsTrim d.TEN_NHOM)
    · rw [chartRevStep_med acc d h1, if_pos h1]
      dsimp only
      ring
    · rw [if_neg h1]
      by_cases h2 : chartIsCLS (jsTrim d.TEN_NHOM)
      · rw [chartRevStep_cls acc d h1 h2]
        dsimp only
        ring
      · by_cases h3 : chartIsBed (jsTrim d.TEN_NHOM)
        · rw [chartRevStep_bed acc d h1 h2 h3]
          dsimp only
          ring
        · rw [chartRevStep_other acc d h1 h2 h3]
          dsimp only
          ring

theorem chartRevFold_cls :
    ∀ (l : List MedicalRecord) (acc : RevenueStructure),
      (l.foldl chartRevStep acc).revCLS
        = acc.revCLS + (l.map fun d =>
            if ¬ chartIsMedicine (jsTrim d.TEN_NHOM) ∧ chartIsCLS (jsTrim d.TEN_NHOM) then
              d.THANH_TIEN
            else 0).sum
  | [], acc => by simp
  | d :: l, acc => by
    rw [List.foldl_cons, chartRevFold_cls l, List.map_cons, List.sum_cons]
    by_cases h1 : chartIsMedicine (jsTrim d.TEN_NHOM)
    · rw [chartRevStep_med acc d h1, if_neg fun hc => hc.1 h1]
      dsimp only
      ring
    · by_cases h2 : chartIsCLS (jsTrim d.TEN_NHOM)
      · rw [chartRevStep_cls acc d h1 h2, if_pos ⟨h1, h2⟩]
        dsimp only
        ring
      · rw [if_neg fun hc => h2 hc.2]
        by_cases h3 : chartIsBed (jsTrim d.TEN_NHOM)
        · rw [chartRevStep_bed acc d h1 h2 h3]
          dsimp only
          ring
        · rw [chartRevStep_other acc d h1 h2 h3]
          dsimp only
          ring

theorem chartRevFold_bed :
    ∀ (l : List MedicalRecord) (acc : RevenueStructure),
      (l.foldl chartRevStep acc).revBed
        = acc.revBed + (l.map fun d =>
            if ¬ chartIsMedicine (jsTrim d.TEN_NHOM) ∧ ¬ chartIsCLS (jsTrim d.TEN_NHOM) ∧
                chartIsBed (jsTrim d.TEN_NHOM) then
              d.THANH_TIEN
            else 0).sum
  | [], acc => by simp
  | d :: l, acc => by
    rw [List.foldl_cons, chartRevFold_bed l, List.map_cons, List.sum_cons]
    by_cases h1 : chartIsMedicine (jsTrim d.TEN_NHOM)
    · rw [chartRevStep_med acc d h1, if_neg fun hc => hc.1 h1]
      dsimp only
      ring
    · by_cases h2 : chartIsCLS (jsTrim d.TEN_NHOM)
      · rw [chartRevStep_cls acc d h1 h2, if_neg fun hc => hc.2.1 h2]
        dsimp only
        ring
      · by_cases h3 : chartIsBed (jsTrim d.TEN_NHOM)
        · rw [chartRevStep_bed acc d h1 h2 h3, if_pos ⟨h1, h2, h3⟩]
          dsimp only
          ring
        · rw [chartRevStep_other acc d h1 h2 h3, if_neg fun hc => h3 hc.2.2]
          dsimp only
          ring

theorem chartRevFold_other :
    ∀ (l : List MedicalRecord) (acc : RevenueStructure),
      (l.foldl chartRevStep acc).revOther
        = acc.revOther + (l.map fun d =>
            if ¬ chartIsMedicine (jsTrim d.TEN_NHOM) ∧ ¬ chartIsCLS (jsTrim d.TEN_NHOM) ∧
                ¬ chartIsBed (jsTrim d.TEN_NHOM) then
              d.THANH_TIEN
            else 0).sum
  | [], acc => by simp
  | d :: l, acc => by
    rw [List.foldl_cons, chartRevFold_other l, List.map_cons, List.sum_cons]
    by_cases h1 : chartIsMedicine (jsTrim d.TEN_NHOM)
    · rw [chartRevStep_med acc d h1, if_neg fun hc => hc.1 h1]
      dsimp only
      ring
    · by_cases h2 : chartIsCLS (jsTrim d.TEN_NHOM)
      · rw [chartRevStep_cls acc d h1 h2, if_neg fun hc => hc.2.1 h2]
        dsimp only
        ring
      · by_cases h3 : chartIsBed (jsTrim d.TEN_NHOM)
        · rw [chartRevStep_bed acc d h1 h2 h3, if_neg fun hc => hc.2.2 h3]
          dsimp only
          ring
        · rw [chartRevStep_other acc d h1 h2 h3, if_pos ⟨h1, h2, h3⟩]
          dsimp only
          ring

theorem perRow_med_agree (g : String) (hg : ∀ c ∈ g.data, Char.isDigit c = true) (v : ℚ) :
    (if isMedicineGroup g then v else 0) = (if chartIsMedicine g then v else 0) := by
  rw [isMedicineGroup_digits g hg, chartIsMedicine_digits g hg]

theorem perRow_bed_agree (g : String) (hg : ∀ c ∈ g.data, Char.isDigit c = true) (v : ℚ) :
    (if isBedGroup g then v else 0)
      = (if ¬ chartIsMedicine g ∧ ¬ chartIsCLS g ∧ chartIsBed g then v else 0) := by
  rw [isBedGroup_digits g hg, chartIsMedicine_digits g hg, chartIsCLS_digits g hg,
    chartIsBed_digits g hg]
  by_cases h14 : g = "14"
  · subst h14; simp
  · by_cases h15 : g = "15"
    · subst h15; simp
    · simp [h14, h15]

theorem perRow_cls_agree (g : String) (hg : ∀ c ∈ g.data, Char.isDigit c = true) (v : ℚ) :
    (if isCDHAGroup g then v else 0) + (if isLabGroup g then v else 0)
      = (if ¬ chartIsMedicine g ∧ chartIsCLS g then v else 0) := by
  rw [isCDHAGroup_digits g hg, isLabGroup_digits g hg, chartIsMedicine_digits g hg,
    chartIsCLS_digits g hg]
  by_cases h1 : g = "1"
  · subst h1; simp
  · by_cases h2 : g = "2"
    · subst h2; simp
    · by_cases h3 : g = "3"
      · subst h3; simp
      · simp [h1, h2, h3]

def rowC2 : MedicalRecord := { MA_LK := "v1", TEN_NHOM := "huyết thanh", THANH_TIEN := 1 }

/-- C2 counterexample: the label "huyết thanh" is classified Medicine by the
KPI aggregator (keyword 'huyết thanh') but reaches the chart rollup's residual
'Khác' bucket (its shorter medicine keyword list has no such entry), so the
KPI medicine total is 1 while the chart 'Thuốc' value is 0. -/
theorem classifier_consistency_claim_false :
    totalMedicineRevenue [rowC2] = 1 ∧ (revenueStructure [rowC2]).revMedicine = 0 ∧
    (revenueStructure [rowC2]).revOther = 1 :=
  ⟨by with_unfolding_all rfl, by with_unfolding_all rfl, by with_unfolding_all rfl⟩

/-- C2 (amended): the two classifiers use different keyword lists and are not
identical on free-text labels; they do agree on the numeric standard-code
labels: for every collection in which each row's trimmed group label consists
of digits only, the KPI medicine total equals the chart 'Thuốc' value, the
KPI bed total equals the chart 'Tiền Giường' value, and the KPI imaging + lab
totals equal the chart 'Cận Lâm Sàng' value. -/
theorem classifier_code_label_agreement (data : List MedicalRecord)
    (h : ∀ d ∈ data, ∀ c ∈ (jsTrim d.TEN_NHOM).data, Char.isDigit c = true) :
    totalMedicineRevenue data = (revenueStructure data).revMedicine ∧
    totalBedRevenue data = (revenueStructure data).revBed ∧
    totalCDHARevenue data + totalLabRevenue data = (revenueStructure data).revCLS := by
  refine ⟨?_, ?_, ?_⟩
  · rw [totalMedicineRevenue_eq_sum,
      show revenueStructure data = data.foldl chartRevStep ⟨0, 0, 0, 0⟩ from rfl,
      chartRevFold_med data ⟨0, 0, 0, 0⟩]
    dsimp only
    rw [zero_add]
    exact congrArg List.sum (List.map_congr_left fun d hd =>
      perRow_med_agree (jsTrim d.TEN_NHOM) (h d hd) d.THANH_TIEN)
  · rw [totalBedRevenue_eq_sum,
      show revenueStructure data = data.foldl chartRevStep ⟨0, 0, 0, 0⟩ from rfl,
      chartRevFold_bed data ⟨0, 0, 0, 0⟩]
    dsimp only
    rw [zero_add]
    exact congrArg List.sum (List.map_congr_left fun d hd =>
      perRow_bed_agree (jsTrim d.TEN_NHOM) (h d hd) d.THANH_TIEN)
  · rw [totalCDHARevenue_eq_sum, totalLabRevenue_eq_sum, ← sumMap_add,
      show revenueStructure data = data.foldl chartRevStep ⟨0, 0, 0, 0⟩ from rfl,
      chartRevFold_cls data ⟨0, 0, 0, 0⟩]
    dsimp only
    rw [zero_add]
    exact congrArg List.sum (List.map_congr_left fun d hd =>
      perRow_cls_agree (jsTrim d.TEN_NHOM) (h d hd) d.THANH_TIEN)

def exC2 : List MedicalRecord :=
  [{ MA_LK := "a", TEN_NHOM := "4", THANH_TIEN := 2 },
   { MA_LK := "b", TEN_NHOM := "1", THANH_TIEN := 3 },
   { MA_LK := "c", TEN_NHOM := "2", THANH_TIEN := 5 },
   { MA_LK := "d", TEN_NHOM := "14", THANH_TIEN := 7 },
   { MA_LK := "e", TEN_NHOM := "9", THANH_TIEN := 11 }]

/-- Witness for C2: on standard-code labels the two classifiers produce the
same medicine, bed and clinical-services totals. -/
theorem classifier_code_label_agreement_witness :
    totalMedicineRevenue exC2 = (revenueStructure exC2).revMedicine ∧
    totalBedRevenue exC2 = (revenueStructure exC2).revBed ∧
    totalCDHARevenue exC2 + totalLabRevenue exC2 = (revenueStructure exC2).revCLS :=
  classifier_code_label_agreement exC2 (by decide)

/-! ### C5: visit-type priority resolution -/

/-- The per-visit view of `visitTypeStep`: how one row's trimmed tag updates
the visit's currently stored tag. -/
def resolveTypeStep (cur : Option String) (newTypeRaw : String) : Option String :=
  match cur with
  | none => some newTypeRaw
  | some currentType =>
    if currentType = "" then some newTypeRaw
    else if isNoiTruTag newTypeRaw ∧ ¬ isNoiTruTag currentType then some newTypeRaw
    else if isDTNgoaiTruTag newTypeRaw ∧ ¬ isNoiTruTag currentType ∧
        ¬ isDTNgoaiTruTag currentType then some newTypeRaw
    else some currentType

theorem resolveTypeStep_cases (cur : Option String) (s : String) :
    resolveTypeStep cur s = some s ∨ resolveTypeStep cur s = cur := by
  unfold resolveTypeStep
  cases cur with
  | none => left; rfl
  | some c =>
    dsimp only
    split_ifs <;> simp

theorem visitTypeStep_get (m : AList String) (d : MedicalRecord) (k : String) :
    alGet (visitTypeStep m d) k
      = if d.MA_LK = k then resolveTypeStep (alGet m k) (jsTrim d.MA_LOAI_KCB)
        else alGet m k := by
  by_cases hk : d.MA_LK = k
  · rw [if_pos hk]
    unfold visitTypeStep resolveTypeStep
    rw [hk]
    cases h : alGet m k with
    | none => dsimp only; exact alGet_alSet_self m k _
    | some cur =>
      dsimp only
      split_ifs
      · exact alGet_alSet_self m k _
      · exact alGet_alSet_self m k _
      · exact alGet_alSet_self m k _
      · exact h
  · rw [if_neg hk]
    unfold visitTypeStep
    cases h : alGet m d.MA_LK with
    | none => exact alGet_alSet_ne m _ hk
    | some cur =>
      dsimp only
      split_ifs
      · exact alGet_alSet_ne m _ hk
      · exact alGet_alSet_ne m _ hk
      · exact alGet_alSet_ne m _ hk
      · rfl

/-- The stored tag for visit `k` is the per-visit fold of the trimmed tags of
`k`'s rows, in order. -/
theorem visitTypeMap_get :
    ∀ (data : List MedicalRecord) (m : AList String) (k : String),
      alGet (data.foldl visitTypeStep m) k
        = ((data.filter fun d => d.MA_LK == k).map fun d => jsTrim d.MA_LOAI_KCB).foldl
            resolveTypeStep (alGet m k)
  | [], _, _ => rfl
  | d :: data, m, k => by
    rw [List.foldl_cons, visitTypeMap_get data]
    by_cases hk : d.MA_LK = k
    · rw [show alGet (visitTypeStep m d) k
          = resolveTypeStep (alGet m k) (jsTrim d.MA_LOAI_KCB) from by
            rw [visitTypeStep_get, if_pos hk],
        List.filter_cons_of_pos (by simp [hk]), List.map_cons, List.foldl_cons]
    · rw [show alGet (visitTypeStep m d) k = alGet m k from by
          rw [visitTypeStep_get, if_neg hk],
        List.filter_cons_of_neg (by simp [hk])]

theorem noiTru_sticky :
    ∀ (tags : List String) (t : String), isNoiTruTag t = true →
      tags.foldl resolveTypeStep (some t) = some t
  | [], _, _ => rfl
  | s :: tags, t, h => by
    rw [List.foldl_cons,
      show resolveTypeStep (some t) s = some t from by
        unfold resolveTypeStep
        dsimp only
        rw [if_neg (by rintro rfl; exact absurd h (by decide)),
          if_neg (fun hc => hc.2 h), if_neg (fun hc => hc.2.1 h)]]
    exact noiTru_sticky tags t h

theorem dtNgoaiTru_sticky :
    ∀ (tags : List String) (t : String), isDTNgoaiTruTag t = true →
      tags.find? isNoiTruTag = none →
      tags.foldl resolveTypeStep (some t) = some t
  | [], _, _, _ => rfl
  | s :: tags, t, h, hfind => by
    have hs : isNoiTruTag s = false := by
      cases hc : isNoiTruTag s with
      | false => rfl
      | true => rw [List.find?_cons_of_pos _ hc] at hfind; cases hfind
    have htail : tags.find? isNoiTruTag = none := by
      rwa [List.find?_cons_of_neg _ (by simp [hs])] at hfind
    rw [List.foldl_cons,
      show resolveTypeStep (some t) s = some t from by
        unfold resolveTypeStep
        dsimp only
        rw [if_neg (by rintro rfl; exact absurd h (by decide)),
          if_neg (fun hc2 => by rw [hs] at hc2; exact absurd hc2.1 (by simp)),
          if_neg (fun hc2 => hc2.2.2 h)]]
    exact dtNgoaiTru_sticky tags t h htail

theorem resolveFold_first_noi :
    ∀ (tags : List String) (cur : Option String) (t : String),
      (∀ c, cur = some c → isNoiTruTag c = false) →
      tags.find? isNoiTruTag = some t →
      tags.foldl resolveTypeStep cur = some t
  | [], _, _, _, hfind => by cases hfind
  | s :: tags, cur, t, hcur, hfind => by
    by_cases hnoi : isNoiTruTag s = true
    · rw [List.find?_cons_of_pos _ hnoi] at hfind
      injection hfind with ht
      subst ht
      rw [List.foldl_cons, show resolveTypeStep cur s = some s from by
        cases cur with
        | none => rfl
        | some c =>
          have hc := hcur c rfl
          unfold resolveTypeStep
          dsimp only
          by_cases hce : c = ""
          · rw [if_pos hce]
          · rw [if_neg hce, if_pos ⟨hnoi, by simp [hc]⟩]]
      exact noiTru_sticky tags s hnoi
    · have hfind2 : tags.find? isNoiTruTag = some t := by
        rwa [List.find?_cons_of_neg _ (by simpa using hnoi)] at hfind
      rw [List.foldl_cons]
      rcases resolveTypeStep_cases cur s with hres | hres
      · rw [hres]
        exact resolveFold_first_noi tags (some s) t
          (fun c hc => by cases hc; simpa using hnoi) hfind2
      · rw [hres]
        exact resolveFold_first_noi tags cur t hcur hfind2

theorem resolveFold_first_dt :
    ∀ (tags : List String) (cur : Option String) (t : String),
      (∀ c, cur = some c → isNoiTruTag c = false ∧ isDTNgoaiTruTag c = false) →
      tags.find? isNoiTruTag = none →
      tags.find? isDTNgoaiTruTag = some t →
      tags.foldl resolveTypeStep cur = some t
  | [], _, _, _, _, hfind => by cases hfind
  | s :: tags, cur, t, hcur, hnone, hfind => by
    have hnois : isNoiTruTag s = false := by
      cases hc : isNoiTruTag s with
      | false => rfl
      | true => rw [List.find?_cons_of_pos _ hc] at hnone; cases hnone
    have hnone2 : tags.find? isNoiTruTag = none := by
      rwa [List.find?_cons_of_neg _ (by simp [hnois])] at hnone
    by_cases hdt : isDTNgoaiTruTag s = true
    · rw [List.find?_cons_of_pos _ hdt] at hfind
      injection hfind with ht
      subst ht
      rw [List.foldl_cons, show resolveTypeStep cur s = some s from by
        cases cur with
        | none => rfl
        | some c =>
          obtain ⟨hc1, hc2⟩ := hcur c rfl
          unfold resolveTypeStep
          dsimp only
          by_cases hce : c = ""
          · rw [if_pos hce]
          · rw [if_neg hce,
              if_neg (fun hx => by rw [hnois] at hx; exact absurd hx.1 (by simp)),
              if_pos ⟨hdt, by simp [hc1], by simp [hc2]⟩]]
      exact dtNgoaiTru_sticky tags s hdt hnone2
    · have hfind2 : tags.find? isDTNgoaiTruTag = some t := by
        rwa [List.find?_cons_of_neg _ (by simpa using hdt)] at hfind
      rw [List.foldl_cons]
      rcases resolveTypeStep_cases cur s with hres | hres
      · rw [hres]
        exact resolveFold_first_dt tags (some s) t
          (fun c hc => by cases hc; exact ⟨hnois, by simpa using hdt⟩) hnone2 hfind2
      · rw [hres]
        exact resolveFold_first_dt tags cur t hcur hnone2 hfind2

/-- A row carrying only a visit id and a visit-type code. -/
def tagRow (lk ty : String) : MedicalRecord :=
  { MA_LK := lk, MA_LOAI_KCB := ty, THANH_TIEN := 0 }

/-- C5 counterexample: a visit whose rows are tagged [Other "09",
Consultation "01"] resolves to the Other tag "09" (bucket `khac`) — the
resolver never upgrades Consultation over a stored Other tag, so the claimed
priority "… > Consultation > Other over its rows" fails. -/
theorem visit_type_priority_claim_false :
    alGet (visitTypeMap [tagRow "v" "09", tagRow "v" "01"]) "v" = some "09" ∧
    bucketOfType "09" = VisitBucket.khac ∧
    bucketOfType "01" = VisitBucket.khamBenh := by
  refine ⟨?_, ?_, ?_⟩ <;> with_unfolding_all rfl

/-- C5 (amended): the resolver prioritises Inpatient, then
Outpatient-Treatment, and otherwise keeps the stored tag (no
Consultation-over-Other reordering): the visit tagged [Other, Inpatient,
Outpatient-Treatment] resolves to the Inpatient tag "03", the visit tagged
[Outpatient-Treatment, Other] keeps "02", and in general the first
Inpatient-flagged row tag of a visit wins — no later row downgrades it — and
failing that the first Outpatient-Treatment-flagged row tag wins, upgrading
over earlier non-flagged rows. -/
theorem visit_type_priority_resolution :
    (alGet (visitTypeMap [tagRow "v" "09", tagRow "v" "03", tagRow "v" "02"]) "v"
        = some "03" ∧ bucketOfType "03" = VisitBucket.noiTru) ∧
    (alGet (visitTypeMap [tagRow "v" "02", tagRow "v" "09"]) "v"
        = some "02" ∧ bucketOfType "02" = VisitBucket.dtNgoaiTru) ∧
    (∀ (data : List MedicalRecord) (k t : String),
      ((data.filter fun d => d.MA_LK == k).map fun d => jsTrim d.MA_LOAI_KCB).find?
          isNoiTruTag = some t →
      alGet (visitTypeMap data) k = some t) ∧
    (∀ (data : List MedicalRecord) (k t : String),
      ((data.filter fun d => d.MA_LK == k).map fun d => jsTrim d.MA_LOAI_KCB).find?
          isNoiTruTag = none →
      ((data.filter fun d => d.MA_LK == k).map fun d => jsTrim d.MA_LOAI_KCB).find?
          isDTNgoaiTruTag = some t →
      alGet (visitTypeMap data) k = some t) := by
  refine ⟨⟨?_, ?_⟩, ⟨?_, ?_⟩, ?_, ?_⟩
  · with_unfolding_all rfl
  · with_unfolding_all rfl
  · with_unfolding_all rfl
  · with_unfolding_all rfl
  · intro data k t hfind
    rw [show visitTypeMap data = data.foldl visitTypeStep [] from rfl, visitTypeMap_get]
    exact resolveFold_first_noi _ _ t (fun c hc => by simp [alGet] at hc) hfind
  · intro data k t hnone hfind
    rw [show visitTypeMap data = data.foldl visitTypeStep [] from rfl, visitTypeMap_get]
    exact resolveFold_first_dt _ _ t (fun c hc => by simp [alGet] at hc) hnone hfind

/-- Witness for C5: a visit tagged [Other "09", Inpatient "03"] resolves to
the Inpatient tag, by the first-Inpatient-wins rule. -/
theorem visit_type_priority_resolution_witness :
    alGet (visitTypeMap [tagRow "w" "09", tagRow "w" "03"]) "w" = some "03" :=
  visit_type_priority_resolution.2.2.1 [tagRow "w" "09", tagRow "w" "03"] "w" "03"
    (by with_unfolding_all rfl)

/-! ### C7: the Date Resolver round-trip -/

theorem dropWhile_none {p : Char → Bool} (l : List Char)
    (h : ∀ c ∈ l, p c = false) : l.dropWhile p = l := by
  cases l with
  | nil => rfl
  | cons x xs =>
    rw [List.dropWhile_cons, if_neg]
    rw [h x (List.mem_cons_self x xs)]
    simp

theorem jsTrim_no_space (l : List Char) (h : ∀ ch ∈ l, isJsSpace ch = false) :
    jsTrim ⟨l⟩ = ⟨l⟩ := by
  unfold jsTrim
  rw [show (String.mk l).data = l from rfl, dropWhile_none l h,
    dropWhile_none l.reverse (fun c hc => h c (List.mem_reverse.mp hc)),
    List.reverse_reverse]

theorem all_eq_false_of_mem {p : Char → Bool} {l : List Char} {c : Char}
    (hc : c ∈ l) (hp : p c = false) : l.all p = false := by
  cases hall : l.all p with
  | false => rfl
  | true =>
    rw [List.all_eq_true] at hall
    rw [hall c hc] at hp
    cases hp

theorem mkChecked_valid (y m d secs : Int) (hy : 100 ≤ y) (hm1 : 1 ≤ m) (hm2 : m ≤ 12)
    (hd1 : 1 ≤ d) (hd2 : d ≤ daysInMonth y m) (hs1 : 0 ≤ secs) (hs2 : secs < 86400) :
    mkChecked y m d secs = some ⟨y, m, d, secs⟩ := by
  unfold mkChecked jsMakeDate
  rw [if_neg (show ¬ (0 ≤ y ∧ y ≤ 99) from fun hc => by omega),
    Int.ediv_eq_zero_of_lt (by omega) (by omega),
    Int.emod_eq_of_lt (by omega) (by omega)]
  dsimp only
  rw [add_zero, sub_add_cancel]
  rw [if_pos (show 1 ≤ d ∧ d ≤ daysInMonth y m ∧ 0 ≤ secs ∧ secs < 86400 from
    ⟨hd1, hd2, hs1, hs2⟩)]
  rw [if_pos ⟨rfl, rfl, rfl⟩]

theorem splitSep3_exact (sep : Char) (hsep : Char.isDigit sep = false)
    (a b c : List Char)
    (ha : ∀ ch ∈ a, Char.isDigit ch = true) (hb : ∀ ch ∈ b, Char.isDigit ch = true)
    (hc : ∀ ch ∈ c, Char.isDigit ch = true) :
    splitSep3 sep (a ++ sep :: (b ++ sep :: c)) = some (a, b, c) := by
  unfold splitSep3
  rw [takeWhile_append_stop sep _ hsep a ha, dropWhile_append_stop sep _ hsep a ha]
  dsimp only
  rw [if_pos rfl, takeWhile_append_stop sep _ hsep b hb,
    dropWhile_append_stop sep _ hsep b hb]
  dsimp only
  rw [if_pos rfl, takeWhile_all hc, dropWhile_all hc]

theorem splitSep3_first_mismatch (sep sep' : Char) (a r : List Char)
    (ha : ∀ ch ∈ a, Char.isDigit ch = true) (hnd : Char.isDigit sep' = false)
    (hne : sep' ≠ sep) : splitSep3 sep (a ++ sep' :: r) = none := by
  unfold splitSep3
  rw [dropWhile_append_stop sep' r hnd a ha]
  dsimp only
  rw [if_neg hne]

theorem try14_not_all_digits (cs : List Char) (h : cs.all Char.isDigit = false) :
    try14 cs = none := by
  unfold try14
  rw [if_neg (fun hcond => by rw [h] at hcond; exact absurd hcond.2 (by simp))]

theorem try8_not_all_digits (cs : List Char) (h : cs.all Char.isDigit = false) :
    try8 cs = none := by
  unfold try8
  rw [if_neg (fun hcond => by rw [h] at hcond; exact absurd hcond.2 (by simp))]

theorem try14_wrong_length (cs : List Char) (h : cs.length ≠ 14) : try14 cs = none := by
  unfold try14
  rw [if_neg (fun hcond => h hcond.1)]

theorem orElseU_none (f : Unit → Option JSDate) :
    (none : Option JSDate).orElse f = f () := rfl

theorem orElseU_some (x : JSDate) (f : Unit → Option JSDate) :
    (some x).orElse f = some x := rfl

/-- Every valid `dd/MM/yyyy` input (1-2 digit day and month runs, 4-digit
year, year ≥ 100) resolves day-first to exactly its components. -/
theorem parseDateString_ddmmyyyy
    (a b c : List Char)
    (ha : ∀ ch ∈ a, Char.isDigit ch = true) (hb : ∀ ch ∈ b, Char.isDigit ch = true)
    (hc : ∀ ch ∈ c, Char.isDigit ch = true)
    (hla1 : 1 ≤ a.length) (hla2 : a.length ≤ 2)
    (hlb1 : 1 ≤ b.length) (hlb2 : b.length ≤ 2) (hlc : c.length = 4)
    (hy : 100 ≤ (digitsVal c : Int))
    (hm1 : 1 ≤ (digitsVal b : Int)) (hm2 : (digitsVal b : Int) ≤ 12)
    (hd1 : 1 ≤ (digitsVal a : Int))
    (hd2 : (digitsVal a : Int) ≤ daysInMonth (digitsVal c) (digitsVal b)) :
    parseDateString ⟨a ++ '/' :: (b ++ '/' :: c)⟩
      = some ⟨(digitsVal c : Int), (digitsVal b : Int), (digitsVal a : Int), 0⟩ := by
  have hmem : ∀ ch ∈ a ++ '/' :: (b ++ '/' :: c), ch = '/' ∨ Char.isDigit ch = true := by
    intro ch hch
    rcases List.mem_append.mp hch with h1 | h1
    · exact Or.inr (ha ch h1)
    · rcases List.mem_cons.mp h1 with rfl | h1
      · exact Or.inl rfl
      · rcases List.mem_append.mp h1 with h2 | h2
        · exact Or.inr (hb ch h2)
        · rcases List.mem_cons.mp h2 with rfl | h2
          · exact Or.inl rfl
          · exact Or.inr (hc ch h2)
  have hnospace : ∀ ch ∈ a ++ '/' :: (b ++ '/' :: c), isJsSpace ch = false := by
    intro ch hch
    rcases hmem ch hch with rfl | hd
    · decide
    · exact isJsSpace_false_of_isDigit hd
  have hslashmem : '/' ∈ a ++ '/' :: (b ++ '/' :: c) :=
    List.mem_append.mpr (Or.inr (List.mem_cons_self _ _))
  have hall : (a ++ '/' :: (b ++ '/' :: c)).all Char.isDigit = false :=
    all_eq_false_of_mem hslashmem (by decide)
  have hne : ¬ (String.mk (a ++ '/' :: (b ++ '/' :: c)) = "") := by
    intro hcontra
    have h0 : a ++ '/' :: (b ++ '/' :: c) = [] := congrArg String.data hcontra
    rw [h0] at hslashmem
    cases hslashmem
  have hnosp2 : ∀ ch ∈ a ++ '/' :: (b ++ '/' :: c), (decide ¬ ch = ' ') = true := by
    intro ch hch
    rw [decide_eq_true_eq]
    rcases hmem ch hch with rfl | hd
    · decide
    · exact ne_of_isDigit hd (by decide)
  simp only [parseDateString, if_neg hne, jsTrim_no_space _ hnospace,
    show (String.mk (a ++ '/' :: (b ++ '/' :: c))).data = a ++ '/' :: (b ++ '/' :: c)
      from rfl,
    try14_not_all_digits _ hall, try8_not_all_digits _ hall, orElseU_none,
    takeWhile_all hnosp2]
  rw [show trySlashDMY (a ++ '/' :: (b ++ '/' :: c))
      = some ⟨(digitsVal c : Int), (digitsVal b : Int), (digitsVal a : Int), 0⟩ from by
    unfold trySlashDMY
    rw [splitSep3_exact '/' (by decide) a b c ha hb hc]
    dsimp only
    rw [if_pos ⟨hla1, hla2, hlb1, hlb2, hlc⟩]
    exact mkChecked_valid _ _ _ _ hy hm1 hm2 hd1 hd2 (by omega) (by omega),
    orElseU_some]

theorem parseDateString_digits14
    (y4 m2 d2 h2 i2 s2 : List Char)
    (hy4 : ∀ ch ∈ y4, Char.isDigit ch = true) (hm2 : ∀ ch ∈ m2, Char.isDigit ch = true)
    (hd2 : ∀ ch ∈ d2, Char.isDigit ch = true) (hh2 : ∀ ch ∈ h2, Char.isDigit ch = true)
    (hi2 : ∀ ch ∈ i2, Char.isDigit ch = true) (hs2 : ∀ ch ∈ s2, Char.isDigit ch = true)
    (hly : y4.length = 4) (hlm : m2.length = 2) (hld : d2.length = 2)
    (hlh : h2.length = 2) (hli : i2.length = 2) (hls : s2.length = 2)
    (hy : 100 ≤ (digitsVal y4 : Int))
    (hm1 : 1 ≤ (digitsVal m2 : Int)) (hmm : (digitsVal m2 : Int) ≤ 12)
    (hd1 : 1 ≤ (digitsVal d2 : Int))
    (hdd : (digitsVal d2 : Int) ≤ daysInMonth (digitsVal y4) (digitsVal m2))
    (hh : (digitsVal h2 : Int) ≤ 23) (hi : (digitsVal i2 : Int) ≤ 59)
    (hs : (digitsVal s2 : Int) ≤ 59) :
    parseDateString ⟨y4 ++ (m2 ++ (d2 ++ (h2 ++ (i2 ++ s2))))⟩
      = some ⟨(digitsVal y4 : Int), (digitsVal m2 : Int), (digitsVal d2 : Int),
          (digitsVal h2 : Int) * 3600 + (digitsVal i2 : Int) * 60 + (digitsVal s2 : Int)⟩ := by
  have hdig : ∀ ch ∈ y4 ++ (m2 ++ (d2 ++ (h2 ++ (i2 ++ s2)))), Char.isDigit ch = true := by
    intro ch hch
    simp only [List.mem_append] at hch
    rcases hch with h | h | h | h | h | h
    exacts [hy4 ch h, hm2 ch h, hd2 ch h, hh2 ch h, hi2 ch h, hs2 ch h]
  have hlen : (y4 ++ (m2 ++ (d2 ++ (h2 ++ (i2 ++ s2))))).length = 14 := by
    simp [List.length_append, hly, hlm, hld, hlh, hli, hls]
  have hnospace : ∀ ch ∈ y4 ++ (m2 ++ (d2 ++ (h2 ++ (i2 ++ s2)))), isJsSpace ch = false :=
    fun ch hch => isJsSpace_false_of_isDigit (hdig ch hch)
  have hne : ¬ (String.mk (y4 ++ (m2 ++ (d2 ++ (h2 ++ (i2 ++ s2))))) = "") := by
    intro hcontra
    have h0 : y4 ++ (m2 ++ (d2 ++ (h2 ++ (i2 ++ s2)))) = ([] : List Char) :=
      congrArg String.data hcontra
    have h1 := hlen
    rw [h0] at h1
    exact absurd h1 (by decide)
  have hall : (y4 ++ (m2 ++ (d2 ++ (h2 ++ (i2 ++ s2))))).all Char.isDigit = true :=
    List.all_eq_true.mpr hdig
  have e0 : (y4 ++ (m2 ++ (d2 ++ (h2 ++ (i2 ++ s2))))).take 4 = y4 := List.take_left' hly
  have d4 : (y4 ++ (m2 ++ (d2 ++ (h2 ++ (i2 ++ s2))))).drop 4
      = m2 ++ (d2 ++ (h2 ++ (i2 ++ s2))) := List.drop_left' hly
  have e1 : ((y4 ++ (m2 ++ (d2 ++ (h2 ++ (i2 ++ s2))))).drop 4).take 2 = m2 := by
    rw [d4]
    exact List.take_left' hlm
  have d6 : (y4 ++ (m2 ++ (d2 ++ (h2 ++ (i2 ++ s2))))).drop 6 = d2 ++ (h2 ++ (i2 ++ s2)) := by
    rw [show (6 : Nat) = 4 + 2 from rfl, ← List.drop_drop, d4]
    exact List.drop_left' hlm
  have e2 : ((y4 ++ (m2 ++ (d2 ++ (h2 ++ (i2 ++ s2))))).drop 6).take 2 = d2 := by
    rw [d6]
    exact List.take_left' hld
  have d8 : (y4 ++ (m2 ++ (d2 ++ (h2 ++ (i2 ++ s2))))).drop 8 = h2 ++ (i2 ++ s2) := by
    rw [show (8 : Nat) = 6 + 2 from rfl, ← List.drop_drop, d6]
    exact List.drop_left' hld
  have e3 : ((y4 ++ (m2 ++ (d2 ++ (h2 ++ (i2 ++ s2))))).drop 8).take 2 = h2 := by
    rw [d8]
    exact List.take_left' hlh
  have d10 : (y4 ++ (m2 ++ (d2 ++ (h2 ++ (i2 ++ s2))))).drop 10 = i2 ++ s2 := by
    rw [show (10 : Nat) = 8 + 2 from rfl, ← List.drop_drop, d8]
    exact List.drop_left' hlh
  have e4 : ((y4 ++ (m2 ++ (d2 ++ (h2 ++ (i2 ++ s2))))).drop 10).take 2 = i2 := by
    rw [d10]
    exact List.take_left' hli
  have d12 : (y4 ++ (m2 ++ (d2 ++ (h2 ++ (i2 ++ s2))))).drop 12 = s2 := by
    rw [show (12 : Nat) = 10 + 2 from rfl, ← List.drop_drop, d10]
    exact List.drop_left' hli
  have e5 : ((y4 ++ (m2 ++ (d2 ++ (h2 ++ (i2 ++ s2))))).drop 12).take 2 = s2 := by
    rw [d12]
    exact List.take_of_length_le (by omega)
  have htry : try14 (y4 ++ (m2 ++ (d2 ++ (h2 ++ (i2 ++ s2)))))
      = some ⟨(digitsVal y4 : Int), (digitsVal m2 : Int), (digitsVal d2 : Int),
          (digitsVal h2 : Int) * 3600 + (digitsVal i2 : Int) * 60 + (digitsVal s2 : Int)⟩ := by
    unfold try14
    rw [if_pos ⟨hlen, hall⟩, e0, e1, e2, e3, e4, e5]
    exact mkChecked_valid _ _ _ _ hy hm1 hmm hd1 hdd (by omega) (by omega)
  simp only [parseDateString, if_neg hne, jsTrim_no_space _ hnospace,
    show (String.mk (y4 ++ (m2 ++ (d2 ++ (h2 ++ (i2 ++ s2)))))).data
        = y4 ++ (m2 ++ (d2 ++ (h2 ++ (i2 ++ s2)))) from rfl,
    htry, orElseU_some]


theorem parseDateString_digits8
    (y4 m2 d2 : List Char)
    (hy4 : ∀ ch ∈ y4, Char.isDigit ch = true) (hm2 : ∀ ch ∈ m2, Char.isDigit ch = true)
    (hd2 : ∀ ch ∈ d2, Char.isDigit ch = true)
    (hly : y4.length = 4) (hlm : m2.length = 2) (hld : d2.length = 2)
    (hy : 100 ≤ (digitsVal y4 : Int))
    (hm1 : 1 ≤ (digitsVal m2 : Int)) (hmm : (digitsVal m2 : Int) ≤ 12)
    (hd1 : 1 ≤ (digitsVal d2 : Int))
    (hdd : (digitsVal d2 : Int) ≤ daysInMonth (digitsVal y4) (digitsVal m2)) :
    parseDateString ⟨y4 ++ (m2 ++ d2)⟩
      = some ⟨(digitsVal y4 : Int), (digitsVal m2 : Int), (digitsVal d2 : Int), 0⟩ := by
  have hdig : ∀ ch ∈ y4 ++ (m2 ++ d2), Char.isDigit ch = true := by
    intro ch hch
    simp only [List.mem_append] at hch
    rcases hch with h | h | h
    exacts [hy4 ch h, hm2 ch h, hd2 ch h]
  have hlen : (y4 ++ (m2 ++ d2)).length = 8 := by
    simp [List.length_append, hly, hlm, hld]
  have hnospace : ∀ ch ∈ y4 ++ (m2 ++ d2), isJsSpace ch = false :=
    fun ch hch => isJsSpace_false_of_isDigit (hdig ch hch)
  have hne : ¬ (String.mk (y4 ++ (m2 ++ d2)) = "") := by
    intro hcontra
    have h0 : y4 ++ (m2 ++ d2) = ([] : List Char) := congrArg String.data hcontra
    have h1 := hlen
    rw [h0] at h1
    exact absurd h1 (by decide)
  have hall : (y4 ++ (m2 ++ d2)).all Char.isDigit = true := List.all_eq_true.mpr hdig
  have e0 : (y4 ++ (m2 ++ d2)).take 4 = y4 := List.take_left' hly
  have d4 : (y4 ++ (m2 ++ d2)).drop 4 = m2 ++ d2 := List.drop_left' hly
  have e1 : ((y4 ++ (m2 ++ d2)).drop 4).take 2 = m2 := by
    rw [d4]
    exact List.take_left' hlm
  have d6 : (y4 ++ (m2 ++ d2)).drop 6 = d2 := by
    rw [show (6 : Nat) = 4 + 2 from rfl, ← List.drop_drop, d4]
    exact List.drop_left' hlm
  have e2 : ((y4 ++ (m2 ++ d2)).drop 6).take 2 = d2 := by
    rw [d6]
    exact List.take_of_length_le (by omega)
  have htry : try8 (y4 ++ (m2 ++ d2))
      = some ⟨(digitsVal y4 : Int), (digitsVal m2 : Int), (digitsVal d2 : Int), 0⟩ := by
    unfold try8
    rw [if_pos ⟨hlen, hall⟩, e0, e1, e2]
    exact mkChecked_valid _ _ _ _ hy hm1 hmm hd1 hdd (by omega) (by omega)
  simp only [parseDateString, if_neg hne, jsTrim_no_space _ hnospace,
    show (String.mk (y4 ++ (m2 ++ d2))).data = y4 ++ (m2 ++ d2) from rfl,
    try14_wrong_length _ (by rw [hlen]; decide), orElseU_none, htry, orElseU_some]

theorem parseDateString_yyyymmdd
    (a b c : List Char)
    (ha : ∀ ch ∈ a, Char.isDigit ch = true) (hb : ∀ ch ∈ b, Char.isDigit ch = true)
    (hc : ∀ ch ∈ c, Char.isDigit ch = true)
    (hla : a.length = 4)
    (hlb1 : 1 ≤ b.length) (hlb2 : b.length ≤ 2)
    (hlc1 : 1 ≤ c.length) (hlc2 : c.length ≤ 2)
    (hy : 100 ≤ (digitsVal a : Int))
    (hm1 : 1 ≤ (digitsVal b : Int)) (hm2 : (digitsVal b : Int) ≤ 12)
    (hd1 : 1 ≤ (digitsVal c : Int))
    (hd2 : (digitsVal c : Int) ≤ daysInMonth (digitsVal a) (digitsVal b)) :
    parseDateString ⟨a ++ '-' :: (b ++ '-' :: c)⟩
      = some ⟨(digitsVal a : Int), (digitsVal b : Int), (digitsVal c : Int), 0⟩ := by
  have hmem : ∀ ch ∈ a ++ '-' :: (b ++ '-' :: c), ch = '-' ∨ Char.isDigit ch = true := by
    intro ch hch
    rcases List.mem_append.mp hch with h1 | h1
    · exact Or.inr (ha ch h1)
    · rcases List.mem_cons.mp h1 with rfl | h1
      · exact Or.inl rfl
      · rcases List.mem_append.mp h1 with h2 | h2
        · exact Or.inr (hb ch h2)
        · rcases List.mem_cons.mp h2 with rfl | h2
          · exact Or.inl rfl
          · exact Or.inr (hc ch h2)
  have hnospace : ∀ ch ∈ a ++ '-' :: (b ++ '-' :: c), isJsSpace ch = false := by
    intro ch hch
    rcases hmem ch hch with rfl | hd
    · decide
    · exact isJsSpace_false_of_isDigit hd
  have hdashmem : '-' ∈ a ++ '-' :: (b ++ '-' :: c) :=
    List.mem_append.mpr (Or.inr (List.mem_cons_self _ _))
  have hall : (a ++ '-' :: (b ++ '-' :: c)).all Char.isDigit = false :=
    all_eq_false_of_mem hdashmem (by decide)
  have hne : ¬ (String.mk (a ++ '-' :: (b ++ '-' :: c)) = "") := by
    intro hcontra
    have h0 : a ++ '-' :: (b ++ '-' :: c) = [] := congrArg String.data hcontra
    rw [h0] at hdashmem
    cases hdashmem
  have hnosp2 : ∀ ch ∈ a ++ '-' :: (b ++ '-' :: c), (decide ¬ ch = ' ') = true := by
    intro ch hch
    rw [decide_eq_true_eq]
    rcases hmem ch hch with rfl | hd
    · decide
    · exact ne_of_isDigit hd (by decide)
  simp only [parseDateString, if_neg hne, jsTrim_no_space _ hnospace,
    show (String.mk (a ++ '-' :: (b ++ '-' :: c))).data = a ++ '-' :: (b ++ '-' :: c)
      from rfl,
    try14_not_all_digits _ hall, try8_not_all_digits _ hall, orElseU_none,
    takeWhile_all hnosp2]
  rw [show trySlashDMY (a ++ '-' :: (b ++ '-' :: c)) = none from by
    unfold trySlashDMY
    rw [splitSep3_first_mismatch '/' '-' a (b ++ '-' :: c) ha (by decide) (by decide)],
    orElseU_none]
  rw [show tryDashYMD (a ++ '-' :: (b ++ '-' :: c))
      = some ⟨(digitsVal a : Int), (digitsVal b : Int), (digitsVal c : Int), 0⟩ from by
    unfold tryDashYMD
    rw [splitSep3_exact '-' (by decide) a b c ha hb hc]
    dsimp only
    rw [if_pos ⟨hla, hlb1, hlb2, hlc1, hlc2⟩]
    exact mkChecked_valid _ _ _ _ hy hm1 hm2 hd1 hd2 (by omega) (by omega),
    orElseU_some]


/-- C7 counterexample: "01/01/0050" is a syntactically valid dd/MM/yyyy string
denoting the valid calendar date 1 January 50, yet the resolver returns null:
`new Date(50, 0, 1)` applies the ECMAScript two-digit-year rule and yields year
1950, so the round-trip guard `getFullYear() === year` fails in every branch.
The claim's "reconstruct the input digits exactly for every valid input" is
therefore false for years 0-99. -/
theorem date_roundtrip_claim_false :
    parseDateString "01/01/0050" = none := by
  with_unfolding_all rfl

/-- C7 (amended): for every valid input with a four-digit year of value at
least 100, the Date Resolver reconstructs the components exactly, in all four
formats — dd/MM/yyyy (day-first, which also settles the ambiguous-slash policy:
the first run is the day), yyyy-MM-dd, 14-digit YYYYMMDDhhmmss and 8-digit
YYYYMMDD; the invalid calendar date "31/02/2024" returns null; and the
ambiguous "05/03/2024" (both runs ≤ 12) resolves day-first to 5 March 2024.
Years 0-99 are excluded: the two-digit-year rule remaps them and the
round-trip guard then rejects the date (see the counterexample). -/
theorem date_resolver_roundtrip :
    (∀ a b c : List Char,
      (∀ ch ∈ a, Char.isDigit ch = true) → (∀ ch ∈ b, Char.isDigit ch = true) →
      (∀ ch ∈ c, Char.isDigit ch = true) →
      1 ≤ a.length → a.length ≤ 2 → 1 ≤ b.length → b.length ≤ 2 → c.length = 4 →
      100 ≤ (digitsVal c : Int) →
      1 ≤ (digitsVal b : Int) → (digitsVal b : Int) ≤ 12 →
      1 ≤ (digitsVal a : Int) →
      (digitsVal a : Int) ≤ daysInMonth (digitsVal c) (digitsVal b) →
      parseDateString ⟨a ++ '/' :: (b ++ '/' :: c)⟩
        = some ⟨(digitsVal c : Int), (digitsVal b : Int), (digitsVal a : Int), 0⟩) ∧
    (∀ a b c : List Char,
      (∀ ch ∈ a, Char.isDigit ch = true) → (∀ ch ∈ b, Char.isDigit ch = true) →
      (∀ ch ∈ c, Char.isDigit ch = true) →
      a.length = 4 → 1 ≤ b.length → b.length ≤ 2 → 1 ≤ c.length → c.length ≤ 2 →
      100 ≤ (digitsVal a : Int) →
      1 ≤ (digitsVal b : Int) → (digitsVal b : Int) ≤ 12 →
      1 ≤ (digitsVal c : Int) →
      (digitsVal c : Int) ≤ daysInMonth (digitsVal a) (digitsVal b) →
      parseDateString ⟨a ++ '-' :: (b ++ '-' :: c)⟩
        = some ⟨(digitsVal a : Int), (digitsVal b : Int), (digitsVal c : Int), 0⟩) ∧
    (∀ y4 m2 d2 h2 i2 s2 : List Char,
      (∀ ch ∈ y4, Char.isDigit ch = true) → (∀ ch ∈ m2, Char.isDigit ch = true) →
      (∀ ch ∈ d2, Char.isDigit ch = true) → (∀ ch ∈ h2, Char.isDigit ch = true) →
      (∀ ch ∈ i2, Char.isDigit ch = true) → (∀ ch ∈ s2, Char.isDigit ch = true) →
      y4.length = 4 → m2.length = 2 → d2.length = 2 →
      h2.length = 2 → i2.length = 2 → s2.length = 2 →
      100 ≤ (digitsVal y4 : Int) →
      1 ≤ (digitsVal m2 : Int) → (digitsVal m2 : Int) ≤ 12 →
      1 ≤ (digitsVal d2 : Int) →
      (digitsVal d2 : Int) ≤ daysInMonth (digitsVal y4) (digitsVal m2) →
      (digitsVal h2 : Int) ≤ 23 → (digitsVal i2 : Int) ≤ 59 →
      (digitsVal s2 : Int) ≤ 59 →
      parseDateString ⟨y4 ++ (m2 ++ (d2 ++ (h2 ++ (i2 ++ s2))))⟩
        = some ⟨(digitsVal y4 : Int), (digitsVal m2 : Int), (digitsVal d2 : Int),
            (digitsVal h2 : Int) * 3600 + (digitsVal i2 : Int) * 60
              + (digitsVal s2 : Int)⟩) ∧
    (∀ y4 m2 d2 : List Char,
      (∀ ch ∈ y4, Char.isDigit ch = true) → (∀ ch ∈ m2, Char.isDigit ch = true) →
      (∀ ch ∈ d2, Char.isDigit ch = true) →
      y4.length = 4 → m2.length = 2 → d2.length = 2 →
      100 ≤ (digitsVal y4 : Int) →
      1 ≤ (digitsVal m2 : Int) → (digitsVal m2 : Int) ≤ 12 →
      1 ≤ (digitsVal d2 : Int) →
      (digitsVal d2 : Int) ≤ daysInMonth (digitsVal y4) (digitsVal m2) →
      parseDateString ⟨y4 ++ (m2 ++ d2)⟩
        = some ⟨(digitsVal y4 : Int), (digitsVal m2 : Int), (digitsVal d2 : Int), 0⟩) ∧
    parseDateString "31/02/2024" = none ∧
    parseDateString "05/03/2024" = some ⟨2024, 3, 5, 0⟩ :=
  ⟨parseDateString_ddmmyyyy, parseDateString_yyyymmdd, parseDateString_digits14,
    parseDateString_digits8, by with_unfolding_all rfl, by with_unfolding_all rfl⟩

/-- Witness for C7: the dd/MM/yyyy branch of the round-trip theorem applied to
the concrete leap-day input "29/02/2024". -/
theorem date_resolver_roundtrip_witness :
    parseDateString ⟨['2', '9'] ++ '/' :: (['0', '2'] ++ '/' :: ['2', '0', '2', '4'])⟩
      = some ⟨(digitsVal ['2', '0', '2', '4'] : Int),
          (digitsVal ['0', '2'] : Int), (digitsVal ['2', '9'] : Int), 0⟩ :=
  date_resolver_roundtrip.1 ['2', '9'] ['0', '2'] ['2', '0', '2', '4']
    (by decide) (by decide) (by decide) (by decide) (by decide) (by decide)
    (by decide) (by decide) (by decide) (by decide) (by decide) (by decide)
    (by decide)

/-! ### C9 support: message shapes and map facts -/

theorem head_append_of_cons {pre suf : String} {c : Char}
    (hp : pre.data.head? = some c) : (pre ++ suf).data.head? = some c := by
  rw [String.data_append]
  cases hd : pre.data with
  | nil => rw [hd] at hp; cases hp
  | cons x xs =>
    rw [hd] at hp
    rw [List.cons_append]
    exact hp

theorem string_append_inj_mid {pre suf x y : String}
    (h : pre ++ x ++ suf = pre ++ y ++ suf) : x = y := by
  have hd := congrArg String.data h
  simp only [String.data_append] at hd
  exact String.ext (List.append_cancel_left (List.append_cancel_right hd))

theorem string_append_inj_left {pre x y : String}
    (h : pre ++ x = pre ++ y) : x = y := by
  have hd := congrArg String.data h
  simp only [String.data_append] at hd
  exact String.ext (List.append_cancel_left hd)

theorem alNoDup_nil {α : Type} : alNoDup ([] : AList α) := List.nodup_nil

theorem alNoDup_costByKey (key : MedicalRecord → String) (ds : List MedicalRecord) :
    alNoDup (costByKey key ds) :=
  alNoDup_costFold key ds [] alNoDup_nil

theorem alNoDup_icdVisits (ds : List MedicalRecord) : alNoDup (icdVisitsOf ds) := by
  unfold icdVisitsOf
  have h : ∀ (l : List MedicalRecord) (m : AList (List String)), alNoDup m →
      alNoDup (l.foldl
        (fun m d =>
          let s := (alGet m d.MA_BENH).getD []
          alSet m d.MA_BENH (if s.contains d.MA_LK then s else s ++ [d.MA_LK])) m) := by
    intro l
    induction l with
    | nil => exact fun m hm => hm
    | cons d ds ih =>
      intro m hm
      rw [List.foldl_cons]
      exact ih _ (alNoDup_alSet _ _ _ hm)
  exact h ds [] alNoDup_nil

/-- Every alert pushed by the department loop is `mkDeptAlert` on a current
entry whose previous value passes the floor and growth tests. -/
theorem mem_deptAlertsOf_shape {cur prev : AList ℚ} {a : AlertItem}
    (ha : a ∈ deptAlertsOf cur prev) :
    ∃ k c, (k, c) ∈ cur ∧ ∃ p, alGet prev k = some p ∧
      (p ≠ 0 ∧ 0 < p ∧ 3 / 10 < (c - p) / p) ∧ a = mkDeptAlert k ((c - p) / p) := by
  unfold deptAlertsOf at ha
  rw [List.mem_filterMap] at ha
  obtain ⟨e, he, hround⟩ := ha
  obtain ⟨k, c⟩ := e
  cases hp : alGet prev k with
  | none => rw [hp] at hround; cases hround
  | some p =>
    rw [hp] at hround
    dsimp only at hround
    by_cases hcond : p ≠ 0 ∧ 0 < p ∧ 3 / 10 < (c - p) / p
    · rw [if_pos hcond] at hround
      injection hround with hback
      exact ⟨k, c, he, p, hp, hcond, hback.symm⟩
    · rw [if_neg hcond] at hround; cases hround

/-- Every alert pushed by the diagnosis loop is `mkIcdAlert` on a current
entry whose previous visit set passes the floor and growth tests. -/
theorem mem_icdAlertsOf_shape {cur prev : AList (List String)} {a : AlertItem}
    (ha : a ∈ icdAlertsOf cur prev) :
    ∃ k cs, (k, cs) ∈ cur ∧ ∃ ps, alGet prev k = some ps ∧
      (ps.length ≠ 0 ∧ 10 < ps.length ∧
        3 / 10 < ((cs.length : ℚ) - (ps.length : ℚ)) / (ps.length : ℚ)) ∧
      a = mkIcdAlert k (((cs.length : ℚ) - (ps.length : ℚ)) / (ps.length : ℚ)) cs.length := by
  unfold icdAlertsOf at ha
  rw [List.mem_filterMap] at ha
  obtain ⟨e, he, hround⟩ := ha
  obtain ⟨k, cs⟩ := e
  cases hp : alGet prev k with
  | none => rw [hp] at hround; cases hround
  | some ps =>
    rw [hp] at hround
    dsimp only at hround
    by_cases hcond : ps.length ≠ 0 ∧ 10 < ps.length ∧
        3 / 10 < ((cs.length : ℚ) - (ps.length : ℚ)) / (ps.length : ℚ)
    · rw [if_pos hcond] at hround
      injection hround with hback
      exact ⟨k, cs, he, ps, hp, hcond, hback.symm⟩
    · rw [if_neg hcond] at hround; cases hround

/-- Every alert pushed by the service loop is `mkSvcAlert` on a current entry
whose previous value passes the floor and growth tests. -/
theorem mem_svcAlertsOf_shape {cur prev : AList ℚ} {a : AlertItem}
    (ha : a ∈ svcAlertsOf cur prev) :
    ∃ k c, (k, c) ∈ cur ∧ ∃ p, alGet prev k = some p ∧
      (p ≠ 0 ∧ 1000000 < p ∧ 3 / 10 < (c - p) / p) ∧
      a = mkSvcAlert k ((c - p) / p) (c - p) := by
  unfold svcAlertsOf at ha
  rw [List.mem_filterMap] at ha
  obtain ⟨e, he, hround⟩ := ha
  obtain ⟨k, c⟩ := e
  cases hp : alGet prev k with
  | none => rw [hp] at hround; cases hround
  | some p =>
    rw [hp] at hround
    dsimp only at hround
    by_cases hcond : p ≠ 0 ∧ 1000000 < p ∧ 3 / 10 < (c - p) / p
    · rw [if_pos hcond] at hround
      injection hround with hback
      exact ⟨k, c, he, p, hp, hcond, hback.symm⟩
    · rw [if_neg hcond] at hround; cases hround

theorem deptAlertsOf_msg_head {cur prev : AList ℚ} {a : AlertItem}
    (ha : a ∈ deptAlertsOf cur prev) : a.message.data.head? = some 'K' := by
  obtain ⟨k, c, _, p, _, _, rfl⟩ := mem_deptAlertsOf_shape ha
  exact head_append_of_cons (head_append_of_cons rfl)

theorem icdAlertsOf_msg_head {cur prev : AList (List String)} {a : AlertItem}
    (ha : a ∈ icdAlertsOf cur prev) : a.message.data.head? = some 'B' := by
  obtain ⟨k, cs, _, ps, _, _, rfl⟩ := mem_icdAlertsOf_shape ha
  exact head_append_of_cons (head_append_of_cons rfl)

theorem svcAlertsOf_msg_head {cur prev : AList ℚ} {a : AlertItem}
    (ha : a ∈ svcAlertsOf cur prev) : a.message.data.head? = some 'D' := by
  obtain ⟨k, c, _, p, _, _, rfl⟩ := mem_svcAlertsOf_shape ha
  exact head_append_of_cons rfl

theorem deptMsg_head (k : String) :
    ("Khoa " ++ k ++ " tăng chi phí cao").data.head? = some 'K' :=
  head_append_of_cons (head_append_of_cons rfl)

theorem icdMsg_head (k : String) :
    ("Bệnh " ++ k ++ " tăng số lượt").data.head? = some 'B' :=
  head_append_of_cons (head_append_of_cons rfl)

theorem svcMsg_head (k : String) :
    ("Dịch vụ tăng chi phí bất thường: " ++ k).data.head? = some 'D' :=
  head_append_of_cons rfl

/-- The department loop emits an alert with key `k` in its message iff the
current map holds `k`, the previous map holds a positive value for `k`, and
the growth strictly exceeds 30%. -/
theorem mem_deptAlertsOf_iff (cur prev : AList ℚ) (hnd : alNoDup cur) (k : String) :
    (∃ a ∈ deptAlertsOf cur prev, a.message = "Khoa " ++ k ++ " tăng chi phí cao") ↔
      ∃ c p, alGet cur k = some c ∧ alGet prev k = some p ∧
        0 < p ∧ 3 / 10 < (c - p) / p := by
  constructor
  · rintro ⟨a, ha, hmsg⟩
    obtain ⟨k0, c, he, p, hp, hcond, rfl⟩ := mem_deptAlertsOf_shape ha
    have hk : k0 = k := string_append_inj_mid hmsg
    subst hk
    exact ⟨c, p, mem_alGet_of_noDup hnd he, hp, hcond.2.1, hcond.2.2⟩
  · rintro ⟨c, p, hc, hp, hpos, hg⟩
    refine ⟨mkDeptAlert k ((c - p) / p), ?_, rfl⟩
    unfold deptAlertsOf
    rw [List.mem_filterMap]
    refine ⟨(k, c), alGet_mem hc, ?_⟩
    rw [hp]
    dsimp only
    rw [if_pos ⟨ne_of_gt hpos, hpos, hg⟩]

/-- The diagnosis loop emits an alert with key `k` in its message iff the
current map holds `k`, the previous distinct-visit count exceeds 10, and the
growth strictly exceeds 30%. -/
theorem mem_icdAlertsOf_iff (cur prev : AList (List String)) (hnd : alNoDup cur) (k : String) :
    (∃ a ∈ icdAlertsOf cur prev, a.message = "Bệnh " ++ k ++ " tăng số lượt") ↔
      ∃ cs ps, alGet cur k = some cs ∧ alGet prev k = some ps ∧
        10 < ps.length ∧
        3 / 10 < ((cs.length : ℚ) - (ps.length : ℚ)) / (ps.length : ℚ) := by
  constructor
  · rintro ⟨a, ha, hmsg⟩
    obtain ⟨k0, cs, he, ps, hp, hcond, rfl⟩ := mem_icdAlertsOf_shape ha
    have hk : k0 = k := string_append_inj_mid hmsg
    subst hk
    exact ⟨cs, ps, mem_alGet_of_noDup hnd he, hp, hcond.2.1, hcond.2.2⟩
  · rintro ⟨cs, ps, hc, hp, hfloor, hg⟩
    refine ⟨mkIcdAlert k (((cs.length : ℚ) - (ps.length : ℚ)) / (ps.length : ℚ)) cs.length,
      ?_, rfl⟩
    unfold icdAlertsOf
    rw [List.mem_filterMap]
    refine ⟨(k, cs), alGet_mem hc, ?_⟩
    rw [hp]
    dsimp only
    rw [if_pos ⟨by omega, hfloor, hg⟩]

/-- The service loop emits an alert with key `k` in its message iff the
current map holds `k`, the previous value exceeds the 1,000,000 floor, and
the growth strictly exceeds 30%. -/
theorem mem_svcAlertsOf_iff (cur prev : AList ℚ) (hnd : alNoDup cur) (k : String) :
    (∃ a ∈ svcAlertsOf cur prev, a.message = "Dịch vụ tăng chi phí bất thường: " ++ k) ↔
      ∃ c p, alGet cur k = some c ∧ alGet prev k = some p ∧
        1000000 < p ∧ 3 / 10 < (c - p) / p := by
  constructor
  · rintro ⟨a, ha, hmsg⟩
    obtain ⟨k0, c, he, p, hp, hcond, rfl⟩ := mem_svcAlertsOf_shape ha
    have hk : k0 = k := string_append_inj_left hmsg
    subst hk
    exact ⟨c, p, mem_alGet_of_noDup hnd he, hp, hcond.2.1, hcond.2.2⟩
  · rintro ⟨c, p, hc, hp, hfloor, hg⟩
    refine ⟨mkSvcAlert k ((c - p) / p) (c - p), ?_, rfl⟩
    unfold svcAlertsOf
    rw [List.mem_filterMap]
    refine ⟨(k, c), alGet_mem hc, ?_⟩
    rw [hp]
    dsimp only
    rw [if_pos ⟨by intro h0; rw [h0] at hfloor; norm_num at hfloor, hfloor, hg⟩]

/-- `generateAlerts` on non-empty data with an empty previous month is
exactly the informational alert. -/
theorem generateAlerts_no_prev (d : MedicalRecord) (t : List MedicalRecord)
    (h : prevMonthOf (d :: t) = []) : generateAlerts (d :: t) = [infoAlert] := by
  simp only [generateAlerts]
  rw [if_pos (by rw [h]; rfl)]

/-- `generateAlerts` on non-empty data with a non-empty previous month is the
department, diagnosis and service pushes in order. -/
theorem generateAlerts_cons (d : MedicalRecord) (t : List MedicalRecord)
    (h : prevMonthOf (d :: t) ≠ []) :
    generateAlerts (d :: t) =
      deptAlertsOf (costByKey MedicalRecord.KHOA (currentMonthOf (d :: t)))
          (costByKey MedicalRecord.KHOA (prevMonthOf (d :: t))) ++
        icdAlertsOf (icdVisitsOf (currentMonthOf (d :: t)))
          (icdVisitsOf (prevMonthOf (d :: t))) ++
        svcAlertsOf (costByKey MedicalRecord.DICH_VU (currentMonthOf (d :: t)))
          (costByKey MedicalRecord.DICH_VU (prevMonthOf (d :: t))) := by
  simp only [generateAlerts]
  rw [if_neg (fun hc => h (List.length_eq_zero.mp hc))]


/-- A current-month (February 2024) row for department "A", service "S". -/
def rowC9cur (v : ℚ) : MedicalRecord :=
  { MA_LK := "v1", KHOA := "A", DICH_VU := "S", THANH_TIEN := v,
    NGAY_THONG_KE := ⟨2024, 2, 15, 0⟩ }

/-- A previous-month (January 2024) row for department "A", service "S". -/
def rowC9prev : MedicalRecord :=
  { MA_LK := "v2", KHOA := "A", DICH_VU := "S", THANH_TIEN := 1000000,
    NGAY_THONG_KE := ⟨2024, 1, 15, 0⟩ }

/-- C9: on a non-empty collection, an empty previous month yields exactly the
informational alert; otherwise each loop emits an alert for key `k` iff the
current-month map holds `k`, the previous-month value passes the dimension
noise floor (department: cost > 0; diagnosis: distinct-visit count > 10;
service: cost > 1,000,000) and the growth strictly exceeds 30%; department
cost 1,300,000 vs previous 1,000,000 (exactly 30%) produces no alert, while
1,300,001 vs 1,000,000 produces exactly one danger alert. -/
theorem anomaly_alert_characterization :
    (∀ d t, prevMonthOf (d :: t) = [] → generateAlerts (d :: t) = [infoAlert]) ∧
    (∀ d t k, prevMonthOf (d :: t) ≠ [] →
      ((∃ a ∈ generateAlerts (d :: t), a.message = "Khoa " ++ k ++ " tăng chi phí cao") ↔
        ∃ c p, alGet (costByKey MedicalRecord.KHOA (currentMonthOf (d :: t))) k = some c ∧
          alGet (costByKey MedicalRecord.KHOA (prevMonthOf (d :: t))) k = some p ∧
          0 < p ∧ 3 / 10 < (c - p) / p)) ∧
    (∀ d t k, prevMonthOf (d :: t) ≠ [] →
      ((∃ a ∈ generateAlerts (d :: t), a.message = "Bệnh " ++ k ++ " tăng số lượt") ↔
        ∃ cs ps, alGet (icdVisitsOf (currentMonthOf (d :: t))) k = some cs ∧
          alGet (icdVisitsOf (prevMonthOf (d :: t))) k = some ps ∧
          10 < ps.length ∧
          3 / 10 < ((cs.length : ℚ) - (ps.length : ℚ)) / (ps.length : ℚ))) ∧
    (∀ d t k, prevMonthOf (d :: t) ≠ [] →
      ((∃ a ∈ generateAlerts (d :: t),
          a.message = "Dịch vụ tăng chi phí bất thường: " ++ k) ↔
        ∃ c p, alGet (costByKey MedicalRecord.DICH_VU (currentMonthOf (d :: t))) k = some c ∧
          alGet (costByKey MedicalRecord.DICH_VU (prevMonthOf (d :: t))) k = some p ∧
          1000000 < p ∧ 3 / 10 < (c - p) / p)) ∧
    generateAlerts [rowC9cur 1300000, rowC9prev] = [] ∧
    (generateAlerts [rowC9cur 1300001, rowC9prev]).map (fun a => (a.type, a.message))
      = [("danger", "Khoa A tăng chi phí cao")] := by
  refine ⟨fun d t h => generateAlerts_no_prev d t h, ?_, ?_, ?_, ?_, ?_⟩
  · intro d t k hprev
    rw [generateAlerts_cons d t hprev]
    constructor
    · rintro ⟨a, ha, hmsg⟩
      rcases List.mem_append.mp ha with h1 | hS
      · rcases List.mem_append.mp h1 with hD | hI
        · exact (mem_deptAlertsOf_iff _ _ (alNoDup_costByKey _ _) k).mp ⟨a, hD, hmsg⟩
        · have hh := icdAlertsOf_msg_head hI
          rw [hmsg, deptMsg_head] at hh
          exact absurd hh (by decide)
      · have hh := svcAlertsOf_msg_head hS
        rw [hmsg, deptMsg_head] at hh
        exact absurd hh (by decide)
    · intro hrhs
      obtain ⟨a, ha, hmsg⟩ :=
        (mem_deptAlertsOf_iff _ _ (alNoDup_costByKey _ _) k).mpr hrhs
      exact ⟨a, List.mem_append_left _ (List.mem_append_left _ ha), hmsg⟩
  · intro d t k hprev
    rw [generateAlerts_cons d t hprev]
    constructor
    · rintro ⟨a, ha, hmsg⟩
      rcases List.mem_append.mp ha with h1 | hS
      · rcases List.mem_append.mp h1 with hD | hI
        · have hh := deptAlertsOf_msg_head hD
          rw [hmsg, icdMsg_head] at hh
          exact absurd hh (by decide)
        · exact (mem_icdAlertsOf_iff _ _ (alNoDup_icdVisits _) k).mp ⟨a, hI, hmsg⟩
      · have hh := svcAlertsOf_msg_head hS
        rw [hmsg, icdMsg_head] at hh
        exact absurd hh (by decide)
    · intro hrhs
      obtain ⟨a, ha, hmsg⟩ :=
        (mem_icdAlertsOf_iff _ _ (alNoDup_icdVisits _) k).mpr hrhs
      exact ⟨a, List.mem_append_left _ (List.mem_append_right _ ha), hmsg⟩
  · intro d t k hprev
    rw [generateAlerts_cons d t hprev]
    constructor
    · rintro ⟨a, ha, hmsg⟩
      rcases List.mem_append.mp ha with h1 | hS
      · rcases List.mem_append.mp h1 with hD | hI
        · have hh := deptAlertsOf_msg_head hD
          rw [hmsg, svcMsg_head] at hh
          exact absurd hh (by decide)
        · have hh := icdAlertsOf_msg_head hI
          rw [hmsg, svcMsg_head] at hh
          exact absurd hh (by decide)
      · exact (mem_svcAlertsOf_iff _ _ (alNoDup_costByKey _ _) k).mp ⟨a, hS, hmsg⟩
    · intro hrhs
      obtain ⟨a, ha, hmsg⟩ :=
        (mem_svcAlertsOf_iff _ _ (alNoDup_costByKey _ _) k).mpr hrhs
      exact ⟨a, List.mem_append_right _ ha, hmsg⟩
  · with_unfolding_all rfl
  · with_unfolding_all rfl

/-- Witness for C9: the department branch of the characterization, applied to
the concrete 1,300,001 vs 1,000,000 collection at key "A". -/
theorem anomaly_alert_characterization_witness :
    ∃ a ∈ generateAlerts [rowC9cur 1300001, rowC9prev],
      a.message = "Khoa " ++ "A" ++ " tăng chi phí cao" :=
  (anomaly_alert_characterization.2.1 (rowC9cur 1300001) [rowC9prev] "A"
      (by rw [show prevMonthOf [rowC9cur 1300001, rowC9prev] = [rowC9prev] from by
            with_unfolding_all rfl]
          exact List.cons_ne_nil _ _)).mpr
    ⟨1300001, 1000000, by with_unfolding_all rfl, by with_unfolding_all rfl,
      by norm_num, by norm_num⟩

end Dashboard

